import Mathlib

/-!
Verification of the terraform-provider-azurestack repository.

This file gives a shallow embedding, in Lean 4, of the parts of the
provider that the specification talks about: the MutexKV named-mutex
registry, the resource Read/Create/Delete operations for DNS records,
routes, availability sets and DNS zones, the load-balancer backend
address pool update construction, the storage-container name validator,
the base64Encode helper, and the route-table flatten helpers.

Go pointers are modelled as Option values; dereferencing nil is a
failure, so functions that can dereference nil return Option results.
Go errors are strings, diagnostics are lists of strings (empty list =
no diagnostics). Terraform state is a ResourceData record holding the
resource id and an attribute association list.
-/

/-! ## Common infrastructure -/

/-- A Go error value, modelled as its message. -/
abbrev GoError := String

/-- Terraform diagnostics: the empty list is "no error". -/
abbrev Diags := List String

/-- The part of an autorest HTTP response the provider inspects. -/
structure HttpResponse where
  statusCode : Nat
deriving DecidableEq

/-- Modelled from the spec: the helper utils.ResponseWasNotFound lives in
helpers/utils which is absent from src (only call sites are present).
Following the spec sentence "retry Not-Found as delete-from-state", it
recognises an HTTP 404 Not Found response. -/
def ResponseWasNotFound (r : HttpResponse) : Bool :=
  r.statusCode = 404

/-- Modelled from the spec: the result of parseAzureResourceID (the
"generic ID-parsing glue" of the spec, absent from src): the resource
group plus the key/value path segments of an ARM resource id. -/
structure ResourceID where
  resourceGroup : String
  path : List (String × String)
deriving DecidableEq

/-- Go map indexing id.Path[k]: yields the zero value "" when missing. -/
def ResourceID.pathGet (rid : ResourceID) (k : String) : String :=
  match rid.path.lookup k with
  | some v => v
  | none => ""

/-- A Terraform attribute value (the schema value kinds this provider
stores). Pointer-valued attributes are stored as options, mirroring the
pointers the Go code passes to d.Set. -/
inductive AttrVal
  | str (v : String)
  | int (v : Int)
  | optInt (v : Option Int)
  | optStr (v : Option String)
  | strList (v : List String)
  | pairs (v : List (String × String))
  | bool (v : Bool)
  | optBool (v : Option Bool)
deriving DecidableEq

/-- The schema.ResourceData state of one resource instance: its id and
its attribute bag. -/
structure ResourceData where
  rid : String
  attrs : List (String × AttrVal)
deriving DecidableEq

/-- d.SetId(i). -/
def ResourceData.setId (d : ResourceData) (i : String) : ResourceData :=
  { d with rid := i }

/-- d.Set(k, v): overriding insert into the attribute bag. -/
def ResourceData.setAttr (d : ResourceData) (k : String) (v : AttrVal) : ResourceData :=
  { d with attrs := (k, v) :: d.attrs.filter (fun p => p.1 != k) }

/-- d.Get(k).(string): the zero value "" when absent or of another kind. -/
def ResourceData.getStr (d : ResourceData) (k : String) : String :=
  match d.attrs.lookup k with
  | some (AttrVal.str v) => v
  | _ => ""

/-- d.Get(k).(bool): the zero value false when absent. -/
def ResourceData.getBool (d : ResourceData) (k : String) : Bool :=
  match d.attrs.lookup k with
  | some (AttrVal.bool v) => v
  | _ => false

/-- d.Get(k).(map): tags, the zero value is the empty map. -/
def ResourceData.getPairs (d : ResourceData) (k : String) : List (String × String) :=
  match d.attrs.lookup k with
  | some (AttrVal.pairs v) => v
  | _ => []

/-- d.GetOk(k) for a string attribute: ok is false for the zero value. -/
def ResourceData.getOkStr (d : ResourceData) (k : String) : Option String :=
  match d.attrs.lookup k with
  | some (AttrVal.str v) => if v = "" then none else some v
  | _ => none

/-- Modelled from the spec: flattenAndSetTags (helpers, absent from src)
writes the response tags map into the "tags" attribute. -/
def flattenAndSetTags (d : ResourceData) (tags : List (String × String)) : ResourceData :=
  d.setAttr "tags" (AttrVal.pairs tags)

/-- Modelled from the spec: azureStackNormalizeLocation (helpers, absent
from src) normalises an Azure location string to its canonical
lowercase, space-free form. -/
def azureStackNormalizeLocation (loc : String) : String :=
  String.mk ((loc.toLower).data.filter (fun c => c != ' '))

/-- strings.EqualFold restricted to the ASCII case folding the provider
relies on for the "Aligned" SKU comparison. -/
def stringsEqualFold (a b : String) : Bool :=
  a.toLower = b.toLower

/-! ## MutexKV (src/azurestack/data_source_virtual_network.go)

The registry maps key strings to mutexes. Mutexes are identified by
the order of their creation; the store is an association list with
unique keys, exactly mirroring the Go map from key to allocated
sync.Mutex pointer (pointer identity = allocation number). -/

/-- Association-list lookup used by the MutexKV store. -/
def kvLookup (store : List (String × Nat)) (k : String) : Option Nat :=
  match store with
  | [] => none
  | (k0, v) :: rest => if k0 = k then some v else kvLookup rest k

/-- MutexKV: a simple key/value store for arbitrary mutexes. The lock
field of the Go struct only guards the store accesses (get runs under
it atomically) and needs no counterpart in this atomic-step model. -/
structure MutexKV where
  store : List (String × Nat)
  nextId : Nat
deriving DecidableEq

/-- NewMutexKV returns a properly initialized MutexKV. -/
def NewMutexKV : MutexKV :=
  { store := [], nextId := 0 }

/-- MutexKV.get: returns the mutex for the key, allocating and storing a
fresh one when the key is absent. -/
def MutexKV.get (m : MutexKV) (k : String) : Nat × MutexKV :=
  match kvLookup m.store k with
  | some mid => (mid, m)
  | none => (m.nextId, { store := m.store ++ [(k, m.nextId)], nextId := m.nextId + 1 })

/-- One registry operation: Lock, Unlock and get all reach the store
through MutexKV.get. -/
inductive KVOp
  | lock (k : String)
  | unlock (k : String)
  | getOp (k : String)
deriving DecidableEq

/-- The key an operation addresses. -/
def KVOp.key : KVOp → String
  | KVOp.lock k => k
  | KVOp.unlock k => k
  | KVOp.getOp k => k

/-- Effect of one operation on the registry store (each of Lock, Unlock
and get calls MutexKV.get on its key). -/
def MutexKV.applyOp (m : MutexKV) (op : KVOp) : MutexKV :=
  (m.get op.key).2

/-- Effect of a sequence of operations on the registry store. -/
def MutexKV.run (m : MutexKV) (ops : List KVOp) : MutexKV :=
  ops.foldl MutexKV.applyOp m

/-- Registry invariant: stored mutex ids are below the allocation
counter, and both keys and mutex ids are pairwise distinct. -/
def MutexKV.Inv (m : MutexKV) : Prop :=
  (∀ p ∈ m.store, p.2 < m.nextId) ∧
    m.store.Pairwise (fun p q => p.1 ≠ q.1 ∧ p.2 ≠ q.2)

theorem kvLookup_eq_none {store : List (String × Nat)} {k : String}
    (h : kvLookup store k = none) : ∀ p ∈ store, p.1 ≠ k := by
  induction store with
  | nil => intro p hp; simp at hp
  | cons q rest ih =>
    rcases q with ⟨k0, v0⟩
    by_cases hk : k0 = k
    · simp [kvLookup, hk] at h
    · simp [kvLookup, hk] at h
      intro p hp
      rcases List.mem_cons.mp hp with hp0 | hp0
      · subst hp0; simpa using hk
      · exact ih h p hp0

theorem kvLookup_mem {store : List (String × Nat)} {k : String} {v : Nat}
    (h : kvLookup store k = some v) : (k, v) ∈ store := by
  induction store with
  | nil => simp [kvLookup] at h
  | cons p rest ih =>
    rcases p with ⟨k0, v0⟩
    by_cases hk : k0 = k
    · subst hk
      simp [kvLookup] at h
      subst h
      exact List.mem_cons_self _ _
    · simp [kvLookup, hk] at h
      exact List.mem_cons_of_mem _ (ih h)

theorem kvLookup_append_right {store : List (String × Nat)} {k : String}
    (h : kvLookup store k = none) (v : Nat) :
    kvLookup (store ++ [(k, v)]) k = some v := by
  induction store with
  | nil => simp [kvLookup]
  | cons p rest ih =>
    rcases p with ⟨k0, v0⟩
    by_cases hk : k0 = k
    · simp [kvLookup, hk] at h
    · simp [kvLookup, hk] at h ⊢
      exact ih h

theorem kvLookup_append_left {store : List (String × Nat)} {k : String} {v : Nat}
    (h : kvLookup store k = some v) (q : String × Nat) :
    kvLookup (store ++ [q]) k = some v := by
  induction store with
  | nil => simp [kvLookup] at h
  | cons p rest ih =>
    rcases p with ⟨k0, v0⟩
    by_cases hk : k0 = k
    · simp [kvLookup, hk] at h ⊢
      exact h
    · simp [kvLookup, hk] at h ⊢
      exact ih h

/-- The store entry for a key survives a get on any key. -/
theorem kvLookup_get_stable {m : MutexKV} {k : String} {v : Nat}
    (h : kvLookup m.store k = some v) (k2 : String) :
    kvLookup (m.get k2).2.store k = some v := by
  unfold MutexKV.get
  cases hl : kvLookup m.store k2 with
  | some mid => simpa using h
  | none => simpa using kvLookup_append_left h _

/-- The store entry for a key survives any single registry operation. -/
theorem kvLookup_applyOp_stable {m : MutexKV} {k : String} {v : Nat}
    (h : kvLookup m.store k = some v) (op : KVOp) :
    kvLookup (m.applyOp op).store k = some v :=
  kvLookup_get_stable h op.key

/-- The store entry for a key survives any sequence of operations. -/
theorem kvLookup_run_stable {m : MutexKV} {k : String} {v : Nat}
    (h : kvLookup m.store k = some v) (ops : List KVOp) :
    kvLookup (m.run ops).store k = some v := by
  induction ops generalizing m with
  | nil => exact h
  | cons op rest ih =>
    exact ih (kvLookup_applyOp_stable h op)

/-- After a get, the store maps the key to the returned mutex. -/
theorem kvLookup_get_self (m : MutexKV) (k : String) :
    kvLookup (m.get k).2.store k = some (m.get k).1 := by
  unfold MutexKV.get
  cases hl : kvLookup m.store k with
  | some mid => simpa using hl
  | none => simpa using kvLookup_append_right hl m.nextId

/-- A get on a stored key returns the stored mutex. -/
theorem get_of_kvLookup {m : MutexKV} {k : String} {v : Nat}
    (h : kvLookup m.store k = some v) : (m.get k).1 = v := by
  unfold MutexKV.get
  rw [h]

theorem MutexKV.Inv_new : NewMutexKV.Inv := by
  constructor
  · intro p hp; simp [NewMutexKV] at hp
  · simp [NewMutexKV]

theorem MutexKV.Inv_get {m : MutexKV} (h : m.Inv) (k : String) :
    (m.get k).2.Inv := by
  rcases h with ⟨hlt, hpw⟩
  unfold MutexKV.get
  cases hl : kvLookup m.store k with
  | some mid => exact ⟨hlt, hpw⟩
  | none =>
    refine ⟨?_, ?_⟩
    · intro p hp
      rcases List.mem_append.mp hp with hmem | hmem
      · exact Nat.lt_succ_of_lt (hlt p hmem)
      · simp at hmem
        simp [hmem]
    · rw [List.pairwise_append]
      refine ⟨hpw, by simp, ?_⟩
      intro p hp q hq
      simp at hq
      subst hq
      exact ⟨kvLookup_eq_none hl p hp, Nat.ne_of_lt (hlt p hp)⟩

theorem MutexKV.Inv_applyOp {m : MutexKV} (h : m.Inv) (op : KVOp) :
    (m.applyOp op).Inv :=
  MutexKV.Inv_get h op.key

theorem MutexKV.Inv_run {m : MutexKV} (h : m.Inv) (ops : List KVOp) :
    (m.run ops).Inv := by
  induction ops generalizing m with
  | nil => exact h
  | cons op rest ih => exact ih (MutexKV.Inv_applyOp h op)

/-- In a pairwise-distinct store, distinct keys map to distinct mutexes. -/
theorem kvLookup_pairwise_ne {store : List (String × Nat)}
    (hpw : store.Pairwise (fun p q => p.1 ≠ q.1 ∧ p.2 ≠ q.2))
    {k k2 : String} {v v2 : Nat} (hk : k ≠ k2)
    (h1 : kvLookup store k = some v) (h2 : kvLookup store k2 = some v2) :
    v ≠ v2 := by
  induction store with
  | nil => simp [kvLookup] at h1
  | cons p rest ih =>
    rcases p with ⟨k0, v0⟩
    rcases List.pairwise_cons.mp hpw with ⟨hhead, htail⟩
    by_cases e1 : k0 = k
    · subst e1
      by_cases e2 : k0 = k2
      · exact absurd e2 hk
      · simp [kvLookup] at h1
        simp [kvLookup, e2] at h2
        have hd := hhead _ (kvLookup_mem h2)
        subst h1
        exact hd.2
    · simp [kvLookup, e1] at h1
      by_cases e2 : k0 = k2
      · subst e2
        simp [kvLookup] at h2
        have hd := hhead _ (kvLookup_mem h1)
        subst h2
        exact fun hvv => hd.2 hvv.symm
      · simp [kvLookup, e2] at h2
        exact ih htail h1 h2

/-- C1. MutexKV registry invariant: once get has associated a mutex to a
key, every later get with an equal key (after any further sequence of
Lock/Unlock/get operations on the registry) returns the identical
mutex, and a get with a distinct key returns a distinct mutex; hence
all Lock/Unlock calls with equal keys operate on one shared mutex. -/
theorem mutexKV_registry_invariant (ops ops' : List KVOp) (k k2 : String)
    (hk : k ≠ k2) :
    (((((NewMutexKV.run ops).get k).2).run ops').get k).1
        = ((NewMutexKV.run ops).get k).1
    ∧ ((((NewMutexKV.run ops).get k).2).get k2).1
        ≠ ((NewMutexKV.run ops).get k).1 := by
  have hInvM : (NewMutexKV.run ops).Inv := MutexKV.Inv_run MutexKV.Inv_new ops
  have hInv2 : (((NewMutexKV.run ops).get k).2).Inv := MutexKV.Inv_get hInvM k
  have hvk : kvLookup (((NewMutexKV.run ops).get k).2).store k
      = some (((NewMutexKV.run ops).get k).1) := kvLookup_get_self _ k
  constructor
  · exact get_of_kvLookup (kvLookup_run_stable hvk ops')
  · rcases hInv2 with ⟨hlt, hpw⟩
    generalize hm2 : ((NewMutexKV.run ops).get k).2 = m2 at *
    unfold MutexKV.get
    cases hl2 : kvLookup m2.store k2 with
    | some v2 =>
      simpa using kvLookup_pairwise_ne hpw (fun h => hk h.symm) hl2 hvk
    | none =>
      simpa using fun h => Nat.ne_of_lt (hlt _ (kvLookup_mem hvk)) h.symm

/-- Witness for C1 at concrete keys and operation sequences. -/
theorem mutexKV_registry_invariant_witness :
    (((((NewMutexKV.run []).get "lbA").2).run [KVOp.lock "lbB"]).get "lbA").1
        = ((NewMutexKV.run []).get "lbA").1
    ∧ ((((NewMutexKV.run []).get "lbA").2).get "lbB").1
        ≠ ((NewMutexKV.run []).get "lbA").1 :=
  mutexKV_registry_invariant [] [KVOp.lock "lbB"] "lbA" "lbB" (by decide)

/-! ## Named-mutex serialization (C2)

An interleaving semantics for resource operations that bracket their
critical section with armMutexKV.Lock / armMutexKV.Unlock on a key.
Thread t locks the key prog t. A mutex can be acquired only while no
thread holds it (sync.Mutex semantics); Lock and Unlock reach the
mutex through MutexKV.get exactly as in the Go code. -/

/-- Where a resource operation stands relative to its named lock. -/
inductive ThreadPhase
  | ready
  | locked
  | finished
deriving DecidableEq

/-- A global state: the registry, who holds each mutex, and each
operation's phase. -/
structure SysState where
  kv : MutexKV
  holder : Nat → Option Nat
  phase : Nat → ThreadPhase

/-- Effect of armMutexKV.Lock k performed by thread t. -/
def lockStep (s : SysState) (t : Nat) (k : String) : SysState :=
  { kv := (s.kv.get k).2,
    holder := fun m => if m = (s.kv.get k).1 then some t else s.holder m,
    phase := fun u => if u = t then ThreadPhase.locked else s.phase u }

/-- Effect of armMutexKV.Unlock k performed by thread t. -/
def unlockStep (s : SysState) (t : Nat) (k : String) : SysState :=
  { kv := (s.kv.get k).2,
    holder := fun m => if m = (s.kv.get k).1 then none else s.holder m,
    phase := fun u => if u = t then ThreadPhase.finished else s.phase u }

/-- One interleaving step: some operation acquires its free mutex and
enters its critical section, or releases it and finishes. -/
inductive OpStep (prog : Nat → String) : SysState → SysState → Prop
  | acquire (s : SysState) (t : Nat) :
      s.phase t = ThreadPhase.ready →
      s.holder (s.kv.get (prog t)).1 = none →
      OpStep prog s (lockStep s t (prog t))
  | release (s : SysState) (t : Nat) :
      s.phase t = ThreadPhase.locked →
      OpStep prog s (unlockStep s t (prog t))

/-- The initial state: fresh registry, no mutex held, all operations
before their Lock call. -/
def initState : SysState :=
  { kv := NewMutexKV, holder := fun _ => none, phase := fun _ => ThreadPhase.ready }

/-- States reachable by interleaving the operations. -/
def Reachable (prog : Nat → String) (s : SysState) : Prop :=
  Relation.ReflTransGen (OpStep prog) initState s

/-- System invariant: the registry invariant holds, and every operation
inside its critical section holds the mutex registered for its key. -/
def SysInv (prog : Nat → String) (s : SysState) : Prop :=
  s.kv.Inv ∧
    ∀ t, s.phase t = ThreadPhase.locked →
      ∃ mid, kvLookup s.kv.store (prog t) = some mid ∧ s.holder mid = some t

theorem sysInv_step {prog : Nat → String} {s s' : SysState}
    (hInv : SysInv prog s) (hstep : OpStep prog s s') : SysInv prog s' := by
  rcases hInv with ⟨hkv, hloc⟩
  cases hstep with
  | acquire t hph hfree =>
    refine ⟨MutexKV.Inv_get hkv _, ?_⟩
    intro u hu
    by_cases hut : u = t
    · subst hut
      refine ⟨(s.kv.get (prog u)).1, kvLookup_get_self _ _, ?_⟩
      simp [lockStep]
    · have hu' : s.phase u = ThreadPhase.locked := by
        simpa [lockStep, hut] using hu
      rcases hloc u hu' with ⟨mid, hmid, hhold⟩
      refine ⟨mid, kvLookup_get_stable hmid _, ?_⟩
      have hne : mid ≠ (s.kv.get (prog t)).1 := by
        intro he
        rw [he, hfree] at hhold
        exact Option.noConfusion hhold
      simp [lockStep, hne, hhold]
  | release t hph =>
    refine ⟨MutexKV.Inv_get hkv _, ?_⟩
    intro u hu
    by_cases hut : u = t
    · subst hut
      simp [unlockStep] at hu
    · have hu' : s.phase u = ThreadPhase.locked := by
        simpa [unlockStep, hut] using hu
      rcases hloc u hu' with ⟨mid, hmid, hhold⟩
      rcases hloc t hph with ⟨midt, hmidt, hholdt⟩
      refine ⟨mid, kvLookup_get_stable hmid _, ?_⟩
      have hgt : (s.kv.get (prog t)).1 = midt := get_of_kvLookup hmidt
      have hne : mid ≠ (s.kv.get (prog t)).1 := by
        intro he
        rw [he, hgt, hholdt] at hhold
        exact hut (Option.some.inj hhold).symm
      simp [unlockStep, hne, hhold]

theorem reachable_sysInv {prog : Nat → String} {s : SysState}
    (hr : Reachable prog s) : SysInv prog s := by
  induction hr with
  | refl =>
    refine ⟨MutexKV.Inv_new, ?_⟩
    intro t ht
    simp [initState] at ht
  | tail _ hbc ih => exact sysInv_step ih hbc

/-- Two concurrent operations locking distinct keys. -/
def progAB : Nat → String :=
  fun t => if t = 0 then "lbA" else "lbB"

/-- A state in which both distinct-key operations are simultaneously
inside their critical sections. -/
def sBoth : SysState :=
  lockStep (lockStep initState 0 (progAB 0)) 1 (progAB 1)

theorem reachBoth : Reachable progAB sBoth := by
  have h1 : OpStep progAB initState (lockStep initState 0 (progAB 0)) :=
    OpStep.acquire initState 0 rfl rfl
  have h2 : OpStep progAB (lockStep initState 0 (progAB 0)) sBoth :=
    OpStep.acquire (lockStep initState 0 (progAB 0)) 1 (by decide) (by decide)
  exact Relation.ReflTransGen.tail
    (Relation.ReflTransGen.tail Relation.ReflTransGen.refl h1) h2

theorem sBoth_phase0 : sBoth.phase 0 = ThreadPhase.locked := by decide

theorem sBoth_phase1 : sBoth.phase 1 = ThreadPhase.locked := by decide

/-- C2. Named-mutex serialization: in every reachable interleaving, two
distinct operations are never simultaneously inside critical sections
guarded by equal key strings (the code between Lock and the matching
Unlock of equal keys never runs concurrently); and operations locking
distinct keys are not serialized: an interleaving exists in which both
are inside their critical sections at once. -/
theorem armMutexKV_named_serialization (prog : Nat → String) (s : SysState)
    (hr : Reachable prog s) (t u : Nat) (hne : t ≠ u)
    (ht : s.phase t = ThreadPhase.locked) (hu : s.phase u = ThreadPhase.locked) :
    prog t ≠ prog u ∧
      ∃ s2, Reachable progAB s2 ∧ s2.phase 0 = ThreadPhase.locked ∧
        s2.phase 1 = ThreadPhase.locked := by
  refine ⟨?_, ⟨sBoth, reachBoth, sBoth_phase0, sBoth_phase1⟩⟩
  intro hpp
  rcases reachable_sysInv hr with ⟨hkv, hloc⟩
  rcases hloc t ht with ⟨mt, hmt, hht⟩
  rcases hloc u hu with ⟨mu, hmu, hhu⟩
  rw [hpp, hmu] at hmt
  have hmm : mu = mt := Option.some.inj hmt
  subst hmm
  rw [hht] at hhu
  exact hne (Option.some.inj hhu)

/-- Witness for C2 at the concrete two-thread interleaving. -/
theorem armMutexKV_named_serialization_witness :
    progAB 0 ≠ progAB 1 ∧
      ∃ s2, Reachable progAB s2 ∧ s2.phase 0 = ThreadPhase.locked ∧
        s2.phase 1 = ThreadPhase.locked :=
  armMutexKV_named_serialization progAB sBoth reachBoth 0 1 (by decide)
    sBoth_phase0 sBoth_phase1

/-! ## Storage container name validation
(src/azurestack/resource_arm_route.go, second file in the bundle:
resource_arm_storage_container.go) -/

/-- A character allowed by the container-name character class [0-9a-z-]. -/
def isContainerNameChar (c : Char) : Bool :=
  (decide ('0' ≤ c) && decide (c ≤ '9'))
    || (decide ('a' ≤ c) && decide (c ≤ 'z'))
    || (c == '-')

/-- The Go regular expression ^\$root$|^[0-9a-z-]+$ as a predicate:
either the exact string $root, or one-or-more characters from the
class. -/
def containerNameRegexMatches (v : String) : Bool :=
  (v == "$root") || (!(v == "") && v.data.all isContainerNameChar)

/-- Go len(value): the UTF-8 byte length of the string. -/
def goStringLen (v : String) : Nat :=
  v.utf8ByteSize

/-- The Go regular expression ^- as a predicate: the string begins with
a hyphen. -/
def goStartsWithHyphen (v : String) : Bool :=
  match v.data with
  | [] => false
  | c :: _ => c == '-'

/-- validateArmStorageContainerName: appends one error per failed check
(character class, length bounds, leading hyphen), in source order. -/
def validateArmStorageContainerName (v k : String) : List String :=
  let errors : List String := []
  let errors := if containerNameRegexMatches v = false then
      errors ++ ["only lowercase alphanumeric characters and hyphens allowed in "
        ++ k ++ ": " ++ v]
    else errors
  let errors := if goStringLen v < 3 ∨ 63 < goStringLen v then
      errors ++ [k ++ " must be between 3 and 63 characters: " ++ v]
    else errors
  let errors := if goStartsWithHyphen v = true then
      errors ++ [k ++ " cannot begin with a hyphen: " ++ v]
    else errors
  errors

theorem containerNameRegex_not_of_false {v : String}
    (h : containerNameRegexMatches v = false) (hlen : 3 ≤ goStringLen v) :
    ¬(v = "$root" ∨ v.data.all isContainerNameChar = true) := by
  intro hcl
  rcases hcl with hroot | hall
  · subst hroot
    simp [containerNameRegexMatches] at h
  · by_cases hv : v = ""
    · subst hv
      exact absurd hlen (by decide)
    · simp [containerNameRegexMatches, hv, hall] at h

/-- C6. Storage container name validation: the validator returns no
errors iff the name matches the regular expression (exactly $root, or
only lowercase alphanumerics and hyphens), its Go length lies between
3 and 63 inclusive, and it does not begin with a hyphen; and it returns
exactly one error per violated rule. -/
theorem validateArmStorageContainerName_spec (v k : String) :
    (validateArmStorageContainerName v k = [] ↔
      ((v = "$root" ∨ v.data.all isContainerNameChar = true) ∧
        (3 ≤ goStringLen v ∧ goStringLen v ≤ 63) ∧
        goStartsWithHyphen v = false)) ∧
    (validateArmStorageContainerName v k).length =
      ((if containerNameRegexMatches v = false then 1 else 0) +
        (if goStringLen v < 3 ∨ 63 < goStringLen v then 1 else 0) +
        (if goStartsWithHyphen v = true then 1 else 0)) := by
  by_cases hr : containerNameRegexMatches v = false
  · by_cases hl : goStringLen v < 3 ∨ 63 < goStringLen v
    · by_cases hh : goStartsWithHyphen v = true
      · refine ⟨⟨fun h => absurd h (by simp [validateArmStorageContainerName, hr, hl, hh]),
          fun hrhs => ?_⟩, by simp [validateArmStorageContainerName, hr, hl, hh]⟩
        rcases hrhs with ⟨_, hlen, _⟩
        omega
      · refine ⟨⟨fun h => absurd h (by simp [validateArmStorageContainerName, hr, hl, hh]),
          fun hrhs => ?_⟩, by simp [validateArmStorageContainerName, hr, hl, hh]⟩
        rcases hrhs with ⟨_, hlen, _⟩
        omega
    · by_cases hh : goStartsWithHyphen v = true
      · refine ⟨⟨fun h => absurd h (by simp [validateArmStorageContainerName, hr, hl, hh]),
          fun hrhs => ?_⟩, by simp [validateArmStorageContainerName, hr, hl, hh]⟩
        exact absurd hrhs.2.2 (by simp [hh])
      · refine ⟨⟨fun h => absurd h (by simp [validateArmStorageContainerName, hr, hl, hh]),
          fun hrhs => ?_⟩, by simp [validateArmStorageContainerName, hr, hl, hh]⟩
        rcases hrhs with ⟨hcl, hlen, _⟩
        exact absurd hcl (containerNameRegex_not_of_false hr hlen.1)
  · have hr' : containerNameRegexMatches v = true := by
      cases h : containerNameRegexMatches v
      · exact absurd h hr
      · rfl
    have hcl : v = "$root" ∨ v.data.all isContainerNameChar = true := by
      have h2 : v = "$root" ∨ (¬v = "" ∧ ∀ x ∈ v.data, isContainerNameChar x = true) := by
        simpa [containerNameRegexMatches] using hr'
      rcases h2 with h | h
      · exact Or.inl h
      · exact Or.inr (by simpa [List.all_eq_true] using h.2)
    by_cases hl : goStringLen v < 3 ∨ 63 < goStringLen v
    · by_cases hh : goStartsWithHyphen v = true
      · refine ⟨⟨fun h => absurd h (by simp [validateArmStorageContainerName, hr, hl, hh]),
          fun hrhs => ?_⟩, by simp [validateArmStorageContainerName, hr, hl, hh]⟩
        rcases hrhs with ⟨_, hlen, _⟩
        omega
      · refine ⟨⟨fun h => absurd h (by simp [validateArmStorageContainerName, hr, hl, hh]),
          fun hrhs => ?_⟩, by simp [validateArmStorageContainerName, hr, hl, hh]⟩
        rcases hrhs with ⟨_, hlen, _⟩
        omega
    · by_cases hh : goStartsWithHyphen v = true
      · refine ⟨⟨fun h => absurd h (by simp [validateArmStorageContainerName, hr, hl, hh]),
          fun hrhs => ?_⟩, by simp [validateArmStorageContainerName, hr, hl, hh]⟩
        exact absurd hrhs.2.2 (by simp [hh])
      · have hlist : validateArmStorageContainerName v k = [] := by
          simp [validateArmStorageContainerName, hr, hl, hh]
        refine ⟨?_, by simp [validateArmStorageContainerName, hr, hl, hh]⟩
        rw [hlist]
        constructor
        · intro _
          refine ⟨hcl, by omega, ?_⟩
          cases hsw : goStartsWithHyphen v with
          | false => rfl
          | true => exact absurd hsw hh
        · intro _
          rfl

/-! ## base64Encode (src/azurestack/data_source_virtual_network.go,
second file in the bundle: provider.go) -/

/-- A character of the standard base64 alphabet. -/
def isB64Char (c : Char) : Bool :=
  (decide ('A' ≤ c) && decide (c ≤ 'Z'))
    || (decide ('a' ≤ c) && decide (c ≤ 'z'))
    || (decide ('0' ≤ c) && decide (c ≤ '9'))
    || (c == '+') || (c == '/')

/-- The standard base64 alphabet, in index order. -/
def b64Alphabet : List Char :=
  "ABCDEFGHIJKLMNOPQRSTUVWXYZabcdefghijklmnopqrstuvwxyz0123456789+/".data

/-- Index into the base64 alphabet. -/
def b64Tbl (n : Nat) : Char :=
  match b64Alphabet.get? n with
  | some c => c
  | none => 'A'

/-- Validity of the 4-character quanta of a padded base64 string: all
alphabet characters, except that the final quantum may end in = or ==.
This is when Go base64.StdEncoding decoding reports no error. -/
def b64GroupsOk : List Char → Bool
  | [] => true
  | a :: b :: c :: d :: rest =>
    isB64Char a && isB64Char b &&
      (if rest.isEmpty then
        (isB64Char c && isB64Char d) || (isB64Char c && d == '=')
          || (c == '=' && d == '=')
      else isB64Char c && isB64Char d && b64GroupsOk rest)
  | _ => false

/-- isBase64Encoded: base64.StdEncoding.DecodeString(data) returns a
nil error. The Go decoder discards carriage returns and newlines and
then consumes padded 4-character quanta. -/
def isBase64Encoded (data : String) : Bool :=
  b64GroupsOk (data.data.filter (fun c => !(c == '\r') && !(c == '\n')))

/-- UTF-8 encoding of one code point, as Go []byte(s) produces it. -/
def utf8EncodeCharBytes (n : Nat) : List Nat :=
  if n < 128 then [n]
  else if n < 2048 then [192 + n / 64, 128 + n % 64]
  else if n < 65536 then [224 + n / 4096, 128 + n / 64 % 64, 128 + n % 64]
  else [240 + n / 262144, 128 + n / 4096 % 64, 128 + n / 64 % 64, 128 + n % 64]

/-- The UTF-8 bytes of a string, Go []byte(data). -/
def utf8Bytes (s : String) : List Nat :=
  s.data.flatMap (fun c => utf8EncodeCharBytes c.toNat)

/-- base64.StdEncoding.EncodeToString on a byte list: 3-byte groups
become 4 alphabet characters; a trailing 1- or 2-byte group is padded
with == or =. -/
def b64EncodeBytes : List Nat → List Char
  | [] => []
  | [b1] => [b64Tbl (b1 / 4 % 64), b64Tbl (b1 % 4 * 16), '=', '=']
  | [b1, b2] => [b64Tbl (b1 / 4 % 64), b64Tbl ((b1 % 4 * 16 + b2 / 16) % 64),
      b64Tbl (b2 % 16 * 4 % 64), '=']
  | b1 :: b2 :: b3 :: rest =>
    b64Tbl (b1 / 4 % 64) :: b64Tbl ((b1 % 4 * 16 + b2 / 16) % 64)
      :: b64Tbl ((b2 % 16 * 4 + b3 / 64) % 64) :: b64Tbl (b3 % 64)
      :: b64EncodeBytes rest

/-- base64Encode encodes data unless the input is already base64
encoded, in which case it returns the original input unchanged. -/
def base64Encode (data : String) : String :=
  if isBase64Encoded data then data
  else String.mk (b64EncodeBytes (utf8Bytes data))

theorem b64Tbl_mem (n : Nat) : b64Tbl n ∈ b64Alphabet := by
  unfold b64Tbl
  cases h : b64Alphabet.get? n with
  | some c => exact List.get?_mem h
  | none => decide

theorem isB64Char_b64Tbl (n : Nat) : isB64Char (b64Tbl n) = true :=
  (by decide : ∀ c ∈ b64Alphabet, isB64Char c = true) _ (b64Tbl_mem n)

/-- Every character the encoder emits is an alphabet character or =. -/
theorem b64EncodeBytes_chars (bs : List Nat) :
    (b64EncodeBytes bs).all (fun c => isB64Char c || (c == '=')) = true := by
  induction bs using b64EncodeBytes.induct with
  | case1 => rfl
  | case2 b1 => simp [b64EncodeBytes, isB64Char_b64Tbl]
  | case3 b1 b2 => simp [b64EncodeBytes, isB64Char_b64Tbl]
  | case4 b1 b2 b3 rest ih => simp [b64EncodeBytes, isB64Char_b64Tbl, ih]

/-- The encoder output contains no carriage return or newline. -/
theorem b64EncodeBytes_filter (bs : List Nat) :
    (b64EncodeBytes bs).filter (fun c => !(c == '\r') && !(c == '\n'))
      = b64EncodeBytes bs := by
  apply List.filter_eq_self.mpr
  intro c hc
  have hall := List.all_eq_true.mp (b64EncodeBytes_chars bs) c hc
  simp only [Bool.or_eq_true, beq_iff_eq] at hall
  rcases hall with h | h
  · by_cases hr : c = '\r'
    · subst hr; exact absurd h (by decide)
    · by_cases hn : c = '\n'
      · subst hn; exact absurd h (by decide)
      · simp [hr, hn]
  · subst h; decide

/-- The encoder output always passes the decode validity check. -/
theorem b64GroupsOk_encode (bs : List Nat) :
    b64GroupsOk (b64EncodeBytes bs) = true := by
  induction bs using b64EncodeBytes.induct with
  | case1 => rfl
  | case2 b1 => simp [b64EncodeBytes, b64GroupsOk, isB64Char_b64Tbl]
  | case3 b1 b2 => simp [b64EncodeBytes, b64GroupsOk, isB64Char_b64Tbl]
  | case4 b1 b2 b3 rest ih =>
    simp only [b64EncodeBytes, b64GroupsOk]
    cases h : (b64EncodeBytes rest).isEmpty
    · simp [h, isB64Char_b64Tbl, ih]
    · simp [h, isB64Char_b64Tbl]

/-- C9. base64Encode is idempotent, it returns already-encoded inputs
unchanged, and it returns every other input as its standard base64
encoding. -/
theorem base64Encode_idempotent (s : String) :
    base64Encode (base64Encode s) = base64Encode s ∧
    (isBase64Encoded s = true → base64Encode s = s) ∧
    (isBase64Encoded s = false →
      base64Encode s = String.mk (b64EncodeBytes (utf8Bytes s))) := by
  refine ⟨?_, fun h => by simp [base64Encode, h], fun h => by simp [base64Encode, h]⟩
  by_cases h : isBase64Encoded s = true
  · simp [base64Encode, h]
  · have henc : isBase64Encoded (String.mk (b64EncodeBytes (utf8Bytes s))) = true := by
      unfold isBase64Encoded
      rw [show (String.mk (b64EncodeBytes (utf8Bytes s))).data
          = b64EncodeBytes (utf8Bytes s) from rfl]
      rw [b64EncodeBytes_filter]
      exact b64GroupsOk_encode _
    simp [base64Encode, h, henc]

/-- Witness for C9 at a concrete non-encoded and a concrete encoded
input. -/
theorem base64Encode_idempotent_witness :
    (isBase64Encoded "hi" = false →
      base64Encode "hi" = String.mk (b64EncodeBytes (utf8Bytes "hi"))) ∧
    isBase64Encoded "hi" = false ∧
    base64Encode "hi" = "aGk=" ∧
    (isBase64Encoded "aGk=" = true → base64Encode "aGk=" = "aGk=") ∧
    isBase64Encoded "aGk=" = true :=
  ⟨(base64Encode_idempotent "hi").2.2, rfl, rfl,
    (base64Encode_idempotent "aGk=").2.1, rfl⟩

/-! ## DNS A record flattening (src/azurestack/resource_arm_dns_a_record.go) -/

/-- One dns.ARecord: its Ipv4Address pointer. -/
structure ARecord where
  ipv4Address : Option String
deriving DecidableEq

/-- flattenAzureStackDnsARecords. The source first evaluates
make([]string, 0, len(*records)), dereferencing the records pointer
before the nil check, so a nil pointer is a failure (none); inside the
loop each record's Ipv4Address pointer is dereferenced. -/
def flattenAzureStackDnsARecords (records : Option (List ARecord)) :
    Option (List String) :=
  match records with
  | none => none
  | some rs => rs.mapM (fun r => r.ipv4Address)

/-- C10. Evaluating flattenAzureStackDnsARecords at a nil records
pointer: the len(*records) dereference fails (Go: nil pointer panic)
instead of treating nil as an empty list, so the function is not total
on its public interface. -/
theorem flattenAzureStackDnsARecords_nil_fails :
    flattenAzureStackDnsARecords none = none :=
  rfl

/-! ## Route table data source flattening (src/unnamed/part_000,
data_source_route_table.go) -/

/-- network.RoutePropertiesFormat: the fields the provider reads. -/
structure RoutePropertiesFormat where
  addressPrefix : Option String
  nextHopType : String
  nextHopIPAddress : Option String
deriving DecidableEq

/-- network.Route: name pointer and properties pointer. -/
structure Route where
  name : Option String
  props : Option RoutePropertiesFormat
deriving DecidableEq

/-- network.Subnet: the ID pointer, the only field the flatten reads. -/
structure Subnet where
  ID : Option String
deriving DecidableEq

/-- Loop body of flattenRouteTableDataSourceRoutes: builds the map for
one route, dereferencing route.Name always and props.AddressPrefix when
the properties pointer is non-nil. -/
def flattenRouteTableRouteEntry (route : Route) : Option (List (String × String)) :=
  match route.name with
  | none => none
  | some n =>
    match route.props with
    | none => some [("name", n)]
    | some props =>
      match props.addressPrefix with
      | none => none
      | some ap =>
        match props.nextHopIPAddress with
        | some ip => some [("name", n), ("address_prefix", ap),
            ("next_hop_type", props.nextHopType), ("next_hop_in_ip_address", ip)]
        | none => some [("name", n), ("address_prefix", ap),
            ("next_hop_type", props.nextHopType)]

/-- flattenRouteTableDataSourceRoutes: nil input yields the empty
result list; otherwise one map per route, in input order. -/
def flattenRouteTableDataSourceRoutes (input : Option (List Route)) :
    Option (List (List (String × String))) :=
  match input with
  | none => some []
  | some routes => routes.mapM flattenRouteTableRouteEntry

/-- flattenRouteTableDataSourceSubnets: nil input yields the empty
result list; otherwise the dereferenced subnet IDs, in input order. -/
def flattenRouteTableDataSourceSubnets (subnets : Option (List Subnet)) :
    Option (List String) :=
  match subnets with
  | none => some []
  | some subs => subs.mapM (fun s => s.ID)

/-- The expected map for one route: its name, address_prefix and
next_hop_type, plus next_hop_in_ip_address when present. -/
def routeEntrySpec (route : Route) : List (String × String) :=
  ("name", route.name.getD "") ::
    (match route.props with
     | some p => ("address_prefix", p.addressPrefix.getD "")
         :: ("next_hop_type", p.nextHopType)
         :: (match p.nextHopIPAddress with
             | some ip => [("next_hop_in_ip_address", ip)]
             | none => [])
     | none => [])

theorem mapM_eq_map_of_forall {α β : Type} (f : α → Option β) (g : α → β)
    (l : List α) (h : ∀ a ∈ l, f a = some (g a)) :
    l.mapM f = some (l.map g) := by
  induction l with
  | nil => rfl
  | cons x xs ih =>
    rw [List.mapM_cons, h x (List.mem_cons_self x xs),
      ih (fun a ha => h a (List.mem_cons_of_mem x ha))]
    rfl

/-- C7. Route table flattening preserves elements and order: with all
route names and address prefixes non-nil, the routes flatten to one
map per route in input order carrying name, address_prefix,
next_hop_type and (when present) next_hop_in_ip_address; with all
subnet IDs non-nil, the subnets flatten to exactly the IDs in input
order; nil inputs yield empty results. -/
theorem flattenRouteTableDataSource_spec (routes : List Route) (subnets : List Subnet)
    (h1 : ∀ r ∈ routes, r.name.isSome = true ∧
      ∃ p, r.props = some p ∧ p.addressPrefix.isSome = true)
    (h2 : ∀ s ∈ subnets, s.ID.isSome = true) :
    flattenRouteTableDataSourceRoutes (some routes)
        = some (routes.map routeEntrySpec) ∧
    flattenRouteTableDataSourceSubnets (some subnets)
        = some (subnets.map (fun s => s.ID.getD "")) ∧
    flattenRouteTableDataSourceRoutes none = some [] ∧
    flattenRouteTableDataSourceSubnets none = some [] := by
  refine ⟨?_, ?_, rfl, rfl⟩
  · unfold flattenRouteTableDataSourceRoutes
    apply mapM_eq_map_of_forall
    intro r hr
    rcases h1 r hr with ⟨hname, p, hp, hap⟩
    rcases Option.isSome_iff_exists.mp hname with ⟨n, hn⟩
    rcases Option.isSome_iff_exists.mp hap with ⟨ap, hap2⟩
    cases hip : p.nextHopIPAddress with
    | some ip =>
      simp [flattenRouteTableRouteEntry, routeEntrySpec, hn, hp, hap2, hip]
    | none =>
      simp [flattenRouteTableRouteEntry, routeEntrySpec, hn, hp, hap2, hip]
  · unfold flattenRouteTableDataSourceSubnets
    apply mapM_eq_map_of_forall
    intro s hs
    rcases Option.isSome_iff_exists.mp (h2 s hs) with ⟨i, hi⟩
    simp [hi]

/-- Witness for C7 at a concrete route and subnet list. -/
theorem flattenRouteTableDataSource_spec_witness :
    flattenRouteTableDataSourceRoutes
        (some [{ name := some "r1",
                 props := some { addressPrefix := some "10.0.0.0/16",
                                 nextHopType := "VirtualAppliance",
                                 nextHopIPAddress := some "10.0.0.4" } },
               { name := some "r2",
                 props := some { addressPrefix := some "0.0.0.0/0",
                                 nextHopType := "Internet",
                                 nextHopIPAddress := none } }])
      = some [[("name", "r1"), ("address_prefix", "10.0.0.0/16"),
               ("next_hop_type", "VirtualAppliance"),
               ("next_hop_in_ip_address", "10.0.0.4")],
              [("name", "r2"), ("address_prefix", "0.0.0.0/0"),
               ("next_hop_type", "Internet")]] ∧
    flattenRouteTableDataSourceSubnets (some [{ ID := some "sub1" }])
      = some ["sub1"] ∧
    flattenRouteTableDataSourceRoutes none = some [] ∧
    flattenRouteTableDataSourceSubnets none = some [] :=
  flattenRouteTableDataSource_spec _ _
    (by intro r hr; fin_cases hr <;> exact ⟨rfl, _, rfl, rfl⟩)
    (by intro s hs; fin_cases hs; exact rfl)

/-! ## DNS A record delete (src/azurestack/resource_arm_dns_a_record.go) -/

/-- The environment of one Delete call: the id parser result and the
SDK Delete outcome (error and HTTP status code). -/
structure ARecordDeleteWorld where
  parseID : String → Except GoError ResourceID
  deleteErr : Option GoError
  deleteStatus : Nat

/-- Go fmt %+v of a possibly-nil error. -/
def errShow : Option GoError → String
  | some e => e
  | none => "<nil>"

/-- resourceArmDnsARecordDelete: parses the id, calls the SDK Delete,
and returns diagnostics exactly when resp.StatusCode differs from
http.StatusOK (200); the returned error value is only interpolated
into the message, never tested. -/
def resourceArmDnsARecordDelete (w : ARecordDeleteWorld) (d : ResourceData) :
    Diags × ResourceData :=
  match w.parseID d.rid with
  | Except.error e => ([e], d)
  | Except.ok rid =>
    let name := rid.pathGet "A"
    if w.deleteStatus ≠ 200 then
      (["Error deleting DNS A Record " ++ name ++ ": " ++ errShow w.deleteErr], d)
    else ([], d)

/-- A world where the SDK delete succeeds (nil error) with HTTP status
204 No Content. -/
def dnsDeleteWorld204 : ARecordDeleteWorld :=
  { parseID := fun _ =>
      Except.ok { resourceGroup := "rg", path := [("dnszones", "z"), ("A", "rec")] },
    deleteErr := none,
    deleteStatus := 204 }

/-- A world where the SDK delete reports an error but the HTTP status
is 200 OK. -/
def dnsDeleteWorld200 : ARecordDeleteWorld :=
  { parseID := fun _ =>
      Except.ok { resourceGroup := "rg", path := [("dnszones", "z"), ("A", "rec")] },
    deleteErr := some "transport closed",
    deleteStatus := 200 }

/-- Stored state for the delete examples. -/
def dnsDeleteData : ResourceData :=
  { rid := "dnsid", attrs := [] }

/-- C5 counterexample: a successful SDK delete call (nil error) whose
HTTP response status is 204 still produces non-empty diagnostics, and
an erroring SDK delete call with status 200 produces none; so the
operation does not return diagnostics exactly when the SDK call reports
an error. -/
theorem dnsARecordDelete_claim_counterexample :
    dnsDeleteWorld204.deleteErr = none ∧
    (resourceArmDnsARecordDelete dnsDeleteWorld204 dnsDeleteData).1 ≠ [] ∧
    dnsDeleteWorld200.deleteErr = some "transport closed" ∧
    (resourceArmDnsARecordDelete dnsDeleteWorld200 dnsDeleteData).1 = [] := by
  refine ⟨rfl, ?_, rfl, rfl⟩
  have h : (resourceArmDnsARecordDelete dnsDeleteWorld204 dnsDeleteData).1
      = ["Error deleting DNS A Record rec: <nil>"] := rfl
  rw [h]
  simp

/-- C5 amended: the Delete operation returns error diagnostics exactly
when the HTTP response status code of the SDK delete call is not 200
OK (regardless of the error value), and it never changes the stored
state. -/
theorem dnsARecordDelete_amended (w : ARecordDeleteWorld) (d : ResourceData)
    (rid : ResourceID) (hp : w.parseID d.rid = Except.ok rid) :
    ((resourceArmDnsARecordDelete w d).1 = [] ↔ w.deleteStatus = 200) ∧
    (resourceArmDnsARecordDelete w d).2 = d := by
  unfold resourceArmDnsARecordDelete
  rw [hp]
  by_cases h : w.deleteStatus = 200
  · simp [h]
  · simp [h]

/-- Witness for the amended C5 at a concrete world. -/
theorem dnsARecordDelete_amended_witness :
    ((resourceArmDnsARecordDelete dnsDeleteWorld200 dnsDeleteData).1 = [] ↔
      dnsDeleteWorld200.deleteStatus = 200) ∧
    (resourceArmDnsARecordDelete dnsDeleteWorld200 dnsDeleteData).2 = dnsDeleteData :=
  dnsARecordDelete_amended dnsDeleteWorld200 dnsDeleteData
    { resourceGroup := "rg", path := [("dnszones", "z"), ("A", "rec")] } rfl

/-! ## Read operations: Not-Found handling (C3)

Each Read runs against a world describing what the parser and the SDK
GET call return. The embeddings follow the source functions line by
line; success paths that dereference possibly-nil pointers return
Option results. -/

/-- Observable actions of a create/read operation, for ordering
properties. -/
inductive Event
  | lockEv
  | createCallEv
  | waitDoneEv
  | getCallEv
  | setIdEv
  | unlockEv
deriving DecidableEq

/-- SDK GET result for the DNS A record read. -/
structure ARecordGetResult where
  err : Option GoError
  status : Nat
  ttl : Option Int
  aRecords : Option (List ARecord)
  metadata : List (String × String)

/-- World of one DNS A record read. -/
structure ARecordReadWorld where
  parseID : String → Except GoError ResourceID
  get : ARecordGetResult

/-- resourceArmDnsARecordRead. -/
def resourceArmDnsARecordRead (w : ARecordReadWorld) (d : ResourceData) :
    Option (Diags × ResourceData) :=
  match w.parseID d.rid with
  | Except.error e => some ([e], d)
  | Except.ok rid =>
    let resGroup := rid.resourceGroup
    let name := rid.pathGet "A"
    let zoneName := rid.pathGet "dnszones"
    match w.get.err with
    | some e =>
      if ResponseWasNotFound { statusCode := w.get.status } then
        some ([], d.setId "")
      else
        some (["Error reading DNS A record " ++ name ++ ": " ++ e], d)
    | none =>
      let d := d.setAttr "name" (AttrVal.str name)
      let d := d.setAttr "resource_group_name" (AttrVal.str resGroup)
      let d := d.setAttr "zone_name" (AttrVal.str zoneName)
      let d := d.setAttr "ttl" (AttrVal.optInt w.get.ttl)
      match flattenAzureStackDnsARecords w.get.aRecords with
      | none => none
      | some recs =>
        let d := d.setAttr "records" (AttrVal.strList recs)
        let d := flattenAndSetTags d w.get.metadata
        some ([], d)

/-- SDK GET result for the route read. -/
structure RouteGetResult where
  err : Option GoError
  status : Nat
  routeID : Option String
  props : Option RoutePropertiesFormat

/-- World of one route read. -/
structure RouteReadWorld where
  parseID : String → Except GoError ResourceID
  get : RouteGetResult

/-- resourceArmRouteRead, with its observable events. -/
def resourceArmRouteRead (w : RouteReadWorld) (d : ResourceData) :
    Diags × ResourceData × List Event :=
  match w.parseID d.rid with
  | Except.error e => ([e], d, [])
  | Except.ok rid =>
    let resGroup := rid.resourceGroup
    let rtName := rid.pathGet "routeTables"
    let routeName := rid.pathGet "routes"
    match w.get.err with
    | some e =>
      if ResponseWasNotFound { statusCode := w.get.status } then
        ([], d.setId "", [Event.getCallEv, Event.setIdEv])
      else
        (["Error making Read request on Azure Route " ++ routeName ++ ": " ++ e],
          d, [Event.getCallEv])
    | none =>
      let d := d.setAttr "name" (AttrVal.str routeName)
      let d := d.setAttr "resource_group_name" (AttrVal.str resGroup)
      let d := d.setAttr "route_table_name" (AttrVal.str rtName)
      let d :=
        match w.get.props with
        | some props =>
          let d := d.setAttr "address_prefix" (AttrVal.optStr props.addressPrefix)
          let d := d.setAttr "next_hop_type" (AttrVal.str props.nextHopType)
          match props.nextHopIPAddress with
          | some _ =>
            d.setAttr "next_hop_in_ip_address" (AttrVal.optStr props.nextHopIPAddress)
          | none => d
        | none => d
      ([], d, [Event.getCallEv])

/-- compute.AvailabilitySetProperties: the fields the read uses. -/
structure AvailabilitySetProperties where
  platformUpdateDomainCount : Option Int
  platformFaultDomainCount : Option Int
deriving DecidableEq

/-- SDK GET result for the availability set read. -/
structure AvailSetGetResult where
  err : Option GoError
  status : Nat
  name : Option String
  location : Option String
  props : Option AvailabilitySetProperties
  skuName : Option (Option String)
  tags : List (String × String)

/-- World of one availability set read. -/
structure AvailSetReadWorld where
  parseID : String → Except GoError ResourceID
  get : AvailSetGetResult

/-- resourceArmAvailabilitySetRead: the success path dereferences
resp.AvailabilitySetProperties, so a nil properties pointer is a
failure. -/
def resourceArmAvailabilitySetRead (w : AvailSetReadWorld) (d : ResourceData) :
    Option (Diags × ResourceData) :=
  match w.parseID d.rid with
  | Except.error e => some ([e], d)
  | Except.ok rid =>
    let resGroup := rid.resourceGroup
    let name := rid.pathGet "availabilitySets"
    match w.get.err with
    | some e =>
      if ResponseWasNotFound { statusCode := w.get.status } then
        some ([], d.setId "")
      else
        some (["Error making Read request on Azure Availability Set " ++ name
          ++ " (Resource Group " ++ resGroup ++ "): " ++ e], d)
    | none =>
      match w.get.props with
      | none => none
      | some availSet =>
        let d := d.setAttr "name" (AttrVal.optStr w.get.name)
        let d := d.setAttr "resource_group_name" (AttrVal.str resGroup)
        let d :=
          match w.get.location with
          | some loc =>
            d.setAttr "location" (AttrVal.str (azureStackNormalizeLocation loc))
          | none => d
        let d := d.setAttr "platform_update_domain_count"
          (AttrVal.optInt availSet.platformUpdateDomainCount)
        let d := d.setAttr "platform_fault_domain_count"
          (AttrVal.optInt availSet.platformFaultDomainCount)
        let d :=
          match w.get.skuName with
          | some (some skn) =>
            d.setAttr "managed" (AttrVal.bool (stringsEqualFold skn "Aligned"))
          | _ => d
        let d := flattenAndSetTags d w.get.tags
        some ([], d)

/-- SDK GET result for the DNS zone read. -/
structure DnsZoneGetResult where
  err : Option GoError
  status : Nat
  numberOfRecordSets : Option Int
  maxNumberOfRecordSets : Option Int
  nameServers : Option (List String)
  tags : List (String × String)

/-- World of one DNS zone read. -/
structure DnsZoneReadWorld where
  parseID : String → Except GoError ResourceID
  get : DnsZoneGetResult

/-- resourceArmDnsZoneRead. -/
def resourceArmDnsZoneRead (w : DnsZoneReadWorld) (d : ResourceData) :
    Diags × ResourceData :=
  match w.parseID d.rid with
  | Except.error e => ([e], d)
  | Except.ok rid =>
    let resGroup := rid.resourceGroup
    let name := rid.pathGet "dnszones"
    match w.get.err with
    | some e =>
      if ResponseWasNotFound { statusCode := w.get.status } then
        ([], d.setId "")
      else
        (["Error reading DNS zone " ++ name ++ " (resource group "
          ++ resGroup ++ "): " ++ e], d)
    | none =>
      let d := d.setAttr "name" (AttrVal.str name)
      let d := d.setAttr "resource_group_name" (AttrVal.str resGroup)
      let d := d.setAttr "number_of_record_sets"
        (AttrVal.optInt w.get.numberOfRecordSets)
      let d := d.setAttr "max_number_of_record_sets"
        (AttrVal.optInt w.get.maxNumberOfRecordSets)
      let d :=
        match w.get.nameServers with
        | some ns => d.setAttr "name_servers" (AttrVal.strList ns)
        | none => d
      let d := flattenAndSetTags d w.get.tags
      ([], d)

/-- C3. Retry Not-Found as delete-from-state: in each of the four Read
operations, a failing GET with a 404 response clears the resource id
and yields no diagnostics, while a failing GET with any other status
yields non-empty diagnostics and leaves the state (in particular the
stored id) unchanged. -/
theorem reads_notFound_delete_from_state
    (wa : ARecordReadWorld) (wr : RouteReadWorld) (ws : AvailSetReadWorld)
    (wz : DnsZoneReadWorld) (d : ResourceData)
    (ida idr ids idz : ResourceID) (ea er es ez : GoError)
    (hpa : wa.parseID d.rid = Except.ok ida)
    (hpr : wr.parseID d.rid = Except.ok idr)
    (hps : ws.parseID d.rid = Except.ok ids)
    (hpz : wz.parseID d.rid = Except.ok idz)
    (hea : wa.get.err = some ea)
    (her : wr.get.err = some er)
    (hes : ws.get.err = some es)
    (hez : wz.get.err = some ez) :
    ((wa.get.status = 404 →
        resourceArmDnsARecordRead wa d = some ([], d.setId "")) ∧
      (wa.get.status ≠ 404 →
        ∃ ds, resourceArmDnsARecordRead wa d = some (ds, d) ∧ ds ≠ [])) ∧
    ((wr.get.status = 404 →
        (resourceArmRouteRead wr d).1 = [] ∧
          (resourceArmRouteRead wr d).2.1 = d.setId "") ∧
      (wr.get.status ≠ 404 →
        (resourceArmRouteRead wr d).1 ≠ [] ∧
          (resourceArmRouteRead wr d).2.1 = d)) ∧
    ((ws.get.status = 404 →
        resourceArmAvailabilitySetRead ws d = some ([], d.setId "")) ∧
      (ws.get.status ≠ 404 →
        ∃ ds, resourceArmAvailabilitySetRead ws d = some (ds, d) ∧ ds ≠ [])) ∧
    ((wz.get.status = 404 →
        resourceArmDnsZoneRead wz d = ([], d.setId "")) ∧
      (wz.get.status ≠ 404 →
        (resourceArmDnsZoneRead wz d).1 ≠ [] ∧
          (resourceArmDnsZoneRead wz d).2 = d)) := by
  refine ⟨⟨?_, ?_⟩, ⟨?_, ?_⟩, ⟨?_, ?_⟩, ⟨?_, ?_⟩⟩
  · intro h404
    unfold resourceArmDnsARecordRead
    rw [hpa]
    simp [hea, ResponseWasNotFound, h404]
  · intro hnf
    unfold resourceArmDnsARecordRead
    rw [hpa]
    simp [hea, ResponseWasNotFound, hnf]
  · intro h404
    unfold resourceArmRouteRead
    rw [hpr]
    simp [her, ResponseWasNotFound, h404]
  · intro hnf
    unfold resourceArmRouteRead
    rw [hpr]
    simp [her, ResponseWasNotFound, hnf]
  · intro h404
    unfold resourceArmAvailabilitySetRead
    rw [hps]
    simp [hes, ResponseWasNotFound, h404]
  · intro hnf
    unfold resourceArmAvailabilitySetRead
    rw [hps]
    simp [hes, ResponseWasNotFound, hnf]
  · intro h404
    unfold resourceArmDnsZoneRead
    rw [hpz]
    simp [hez, ResponseWasNotFound, h404]
  · intro hnf
    unfold resourceArmDnsZoneRead
    rw [hpz]
    simp [hez, ResponseWasNotFound, hnf]

/-- A concrete parsed resource id shared by the C3 witness worlds. -/
def c3ID : ResourceID where
  resourceGroup := "rg"
  path := [("A", "rec"), ("dnszones", "z"), ("routeTables", "rt"),
    ("routes", "r1"), ("availabilitySets", "as1")]

/-- C3 witness world: DNS A record GET fails with 404. -/
def c3WorldA : ARecordReadWorld where
  parseID := fun _ => Except.ok c3ID
  get :=
    { err := some "not found"
      status := 404
      ttl := none
      aRecords := none
      metadata := [] }

/-- C3 witness world: route GET fails with 500. -/
def c3WorldR : RouteReadWorld where
  parseID := fun _ => Except.ok c3ID
  get :=
    { err := some "boom"
      status := 500
      routeID := none
      props := none }

/-- C3 witness world: availability set GET fails with 404. -/
def c3WorldS : AvailSetReadWorld where
  parseID := fun _ => Except.ok c3ID
  get :=
    { err := some "not found"
      status := 404
      name := none
      location := none
      props := none
      skuName := none
      tags := [] }

/-- C3 witness world: DNS zone GET fails with 500. -/
def c3WorldZ : DnsZoneReadWorld where
  parseID := fun _ => Except.ok c3ID
  get :=
    { err := some "boom"
      status := 500
      numberOfRecordSets := none
      maxNumberOfRecordSets := none
      nameServers := none
      tags := [] }

/-- Stored state for the C3 witness. -/
def c3Data : ResourceData where
  rid := "rid0"
  attrs := []

/-- Witness for C3 at concrete worlds: 404 clears the id without
diagnostics; 500 yields diagnostics and leaves the state unchanged. -/
theorem reads_notFound_delete_from_state_witness :
    resourceArmDnsARecordRead c3WorldA c3Data = some ([], c3Data.setId "") ∧
    (resourceArmRouteRead c3WorldR c3Data).1 ≠ [] ∧
    (resourceArmRouteRead c3WorldR c3Data).2.1 = c3Data ∧
    resourceArmAvailabilitySetRead c3WorldS c3Data = some ([], c3Data.setId "") ∧
    (resourceArmDnsZoneRead c3WorldZ c3Data).1 ≠ [] ∧
    (resourceArmDnsZoneRead c3WorldZ c3Data).2 = c3Data := by
  have h := reads_notFound_delete_from_state c3WorldA c3WorldR c3WorldS c3WorldZ
    c3Data c3ID c3ID c3ID c3ID "not found" "boom" "not found" "boom"
    rfl rfl rfl rfl rfl rfl rfl rfl
  exact ⟨h.1.1 rfl, (h.2.1.2 (by decide)).1, (h.2.1.2 (by decide)).2,
    h.2.2.1.1 rfl, (h.2.2.2.2 (by decide)).1, (h.2.2.2.2 (by decide)).2⟩

/-! ## Long-running operations polled before state write (C4)

resourceArmRouteCreateUpdate and
resourceArmVirtualMachineExtensionsCreate, with their observable
events: the CreateOrUpdate call, the completed WaitForCompletionRef
poll, the read-back GET, and SetId. azureStackLockByName /
azureStackUnlockByName (absent from src) appear as lock/unlock
events. -/

/-- World of one route create/update: outcomes of CreateOrUpdate,
WaitForCompletionRef, the read-back Get, and the nested Read. -/
structure RouteCreateWorld where
  createErr : Option GoError
  waitErr : Option GoError
  getErr : Option GoError
  getRouteID : Option String
  readW : RouteReadWorld

/-- resourceArmRouteCreateUpdate. -/
def resourceArmRouteCreateUpdate (w : RouteCreateWorld) (d : ResourceData) :
    Diags × ResourceData × List Event :=
  let name := d.getStr "name"
  let rtName := d.getStr "route_table_name"
  let resGroup := d.getStr "resource_group_name"
  let inner : Diags × ResourceData × List Event :=
    match w.createErr with
    | some e =>
      (["Error Creating/Updating Route " ++ name ++ " (Route Table " ++ rtName
        ++ " / Resource Group " ++ resGroup ++ "): " ++ e], d,
        [Event.createCallEv])
    | none =>
      match w.waitErr with
      | some e =>
        (["Error waiting for completion for Route " ++ name ++ " (Route Table "
          ++ rtName ++ " / Resource Group " ++ resGroup ++ "): " ++ e], d,
          [Event.createCallEv])
      | none =>
        match w.getErr with
        | some e =>
          ([e], d, [Event.createCallEv, Event.waitDoneEv, Event.getCallEv])
        | none =>
          match w.getRouteID with
          | none =>
            (["Cannot read Route " ++ rtName ++ "/" ++ name
              ++ " (resource group " ++ resGroup ++ ") ID"], d,
              [Event.createCallEv, Event.waitDoneEv, Event.getCallEv])
          | some newId =>
            let r := resourceArmRouteRead w.readW (d.setId newId)
            (r.1, r.2.1,
              [Event.createCallEv, Event.waitDoneEv, Event.getCallEv,
                Event.setIdEv] ++ r.2.2)
  (inner.1, inner.2.1, Event.lockEv :: inner.2.2 ++ [Event.unlockEv])

/-- compute.VirtualMachineExtensionProperties: fields the provider
uses; the settings maps stand for the parsed JSON values. -/
structure VirtualMachineExtensionProperties where
  publisher : Option String
  extType : Option String
  typeHandlerVersion : Option String
  autoUpgradeMinorVersion : Option Bool
  settings : Option (List (String × String))
deriving DecidableEq

/-- SDK GET result for the virtual machine extension read. -/
structure VmExtGetResult where
  err : Option GoError
  status : Nat
  name : Option String
  location : Option String
  props : Option VirtualMachineExtensionProperties
  tags : List (String × String)

/-- World of one virtual machine extension read. -/
structure VmExtReadWorld where
  parseID : String → Except GoError ResourceID
  flattenJson : List (String × String) → Except GoError String
  get : VmExtGetResult

/-- resourceArmVirtualMachineExtensionsRead, with its events. -/
def resourceArmVirtualMachineExtensionsRead (w : VmExtReadWorld)
    (d : ResourceData) : Diags × ResourceData × List Event :=
  match w.parseID d.rid with
  | Except.error e => ([e], d, [])
  | Except.ok rid =>
    let resGroup := rid.resourceGroup
    let vmName := rid.pathGet "virtualMachines"
    let name := rid.pathGet "extensions"
    match w.get.err with
    | some e =>
      if ResponseWasNotFound { statusCode := w.get.status } then
        ([], d.setId "", [Event.getCallEv, Event.setIdEv])
      else
        (["Error making Read request on Virtual Machine Extension " ++ name
          ++ ": " ++ e], d, [Event.getCallEv])
    | none =>
      let d := d.setAttr "name" (AttrVal.optStr w.get.name)
      let d :=
        match w.get.location with
        | some loc =>
          d.setAttr "location" (AttrVal.str (azureStackNormalizeLocation loc))
        | none => d
      let d := d.setAttr "virtual_machine_name" (AttrVal.str vmName)
      let d := d.setAttr "resource_group_name" (AttrVal.str resGroup)
      match w.get.props with
      | some props =>
        let d := d.setAttr "publisher" (AttrVal.optStr props.publisher)
        let d := d.setAttr "type" (AttrVal.optStr props.extType)
        let d := d.setAttr "type_handler_version"
          (AttrVal.optStr props.typeHandlerVersion)
        let d := d.setAttr "auto_upgrade_minor_version"
          (AttrVal.optBool props.autoUpgradeMinorVersion)
        match props.settings with
        | some settings =>
          match w.flattenJson settings with
          | Except.error e =>
            (["unable to parse settings from response: " ++ e], d,
              [Event.getCallEv])
          | Except.ok js =>
            let d := d.setAttr "settings" (AttrVal.str js)
            let d := flattenAndSetTags d w.get.tags
            ([], d, [Event.getCallEv])
        | none =>
          let d := flattenAndSetTags d w.get.tags
          ([], d, [Event.getCallEv])
      | none =>
        let d := flattenAndSetTags d w.get.tags
        ([], d, [Event.getCallEv])

/-- World of one virtual machine extension create: the JSON expander
for settings, and the outcomes of CreateOrUpdate,
WaitForCompletionRef, the read-back Get, and the nested Read. -/
structure VmExtCreateWorld where
  expandJson : String → Except GoError (List (String × String))
  createErr : Option GoError
  waitErr : Option GoError
  getErr : Option GoError
  getExtID : Option String
  readW : VmExtReadWorld

/-- resourceArmVirtualMachineExtensionsCreate. -/
def resourceArmVirtualMachineExtensionsCreate (w : VmExtCreateWorld)
    (d : ResourceData) : Diags × ResourceData × List Event :=
  let name := d.getStr "name"
  let resGroup := d.getStr "resource_group_name"
  let settingsStr := d.getStr "settings"
  let protectedStr := d.getStr "protected_settings"
  let settingsRes : Except Diags (Option (List (String × String))) :=
    if settingsStr = "" then Except.ok none
    else
      match w.expandJson settingsStr with
      | Except.error e => Except.error ["unable to parse settings: " ++ e]
      | Except.ok m => Except.ok (some m)
  match settingsRes with
  | Except.error ds => (ds, d, [])
  | Except.ok _ =>
    let protectedRes : Except Diags (Option (List (String × String))) :=
      if protectedStr = "" then Except.ok none
      else
        match w.expandJson protectedStr with
        | Except.error e =>
          Except.error ["unable to parse protected_settings: " ++ e]
        | Except.ok m => Except.ok (some m)
    match protectedRes with
    | Except.error ds => (ds, d, [])
    | Except.ok _ =>
      match w.createErr with
      | some e => ([e], d, [Event.createCallEv])
      | none =>
        match w.waitErr with
        | some e => ([e], d, [Event.createCallEv])
        | none =>
          match w.getErr with
          | some e =>
            ([e], d, [Event.createCallEv, Event.waitDoneEv, Event.getCallEv])
          | none =>
            match w.getExtID with
            | none =>
              (["Cannot read  Virtual Machine Extension " ++ name
                ++ " (resource group " ++ resGroup ++ ") ID"], d,
                [Event.createCallEv, Event.waitDoneEv, Event.getCallEv])
            | some newId =>
              let r := resourceArmVirtualMachineExtensionsRead w.readW
                (d.setId newId)
              (r.1, r.2.1,
                [Event.createCallEv, Event.waitDoneEv, Event.getCallEv,
                  Event.setIdEv] ++ r.2.2)

/-- No occurrence of the target event strictly before the first
completed poll in the trace. -/
def noEvBeforeWait (target : Event) (tr : List Event) : Bool :=
  (tr.takeWhile (fun ev => ev != Event.waitDoneEv)).all (fun ev => ev != target)

/-- C4. Long-running operations are polled to completion before state
is written: for route create/update and virtual machine extension
create, a failed CreateOrUpdate start or a failed poll yields non-empty
diagnostics, leaves the state (in particular the resource id)
unchanged, and never performs a SetId; and in every world, neither the
read-back GET nor any SetId occurs before the completed poll in the
operation's event trace. -/
theorem lro_polled_to_completion (w : RouteCreateWorld) (v : VmExtCreateWorld)
    (d dv : ResourceData) :
    ((∀ e, w.createErr = some e →
        (resourceArmRouteCreateUpdate w d).1 ≠ [] ∧
        (resourceArmRouteCreateUpdate w d).2.1 = d ∧
        Event.setIdEv ∉ (resourceArmRouteCreateUpdate w d).2.2) ∧
      (∀ e, w.createErr = none → w.waitErr = some e →
        (resourceArmRouteCreateUpdate w d).1 ≠ [] ∧
        (resourceArmRouteCreateUpdate w d).2.1 = d ∧
        Event.setIdEv ∉ (resourceArmRouteCreateUpdate w d).2.2) ∧
      noEvBeforeWait Event.setIdEv (resourceArmRouteCreateUpdate w d).2.2 = true ∧
      noEvBeforeWait Event.getCallEv (resourceArmRouteCreateUpdate w d).2.2 = true) ∧
    ((∀ e, v.createErr = some e →
        (resourceArmVirtualMachineExtensionsCreate v dv).1 ≠ [] ∧
        (resourceArmVirtualMachineExtensionsCreate v dv).2.1 = dv ∧
        Event.setIdEv ∉ (resourceArmVirtualMachineExtensionsCreate v dv).2.2) ∧
      (∀ e, v.createErr = none → v.waitErr = some e →
        (resourceArmVirtualMachineExtensionsCreate v dv).1 ≠ [] ∧
        (resourceArmVirtualMachineExtensionsCreate v dv).2.1 = dv ∧
        Event.setIdEv ∉ (resourceArmVirtualMachineExtensionsCreate v dv).2.2) ∧
      noEvBeforeWait Event.setIdEv
        (resourceArmVirtualMachineExtensionsCreate v dv).2.2 = true ∧
      noEvBeforeWait Event.getCallEv
        (resourceArmVirtualMachineExtensionsCreate v dv).2.2 = true) := by
  refine ⟨⟨?_, ?_, ?_, ?_⟩, ⟨?_, ?_, ?_, ?_⟩⟩
  · intro e he
    simp [resourceArmRouteCreateUpdate, he]
  · intro e hce hwe
    simp [resourceArmRouteCreateUpdate, hce, hwe]
  · cases hc : w.createErr with
    | some e => simp +decide [resourceArmRouteCreateUpdate, hc, noEvBeforeWait]
    | none =>
      cases hw : w.waitErr with
      | some e => simp +decide [resourceArmRouteCreateUpdate, hc, hw, noEvBeforeWait]
      | none =>
        cases hg : w.getErr with
        | some e =>
          simp +decide [resourceArmRouteCreateUpdate, hc, hw, hg, noEvBeforeWait]
        | none =>
          cases hi : w.getRouteID with
          | none =>
            simp +decide [resourceArmRouteCreateUpdate, hc, hw, hg, hi,
              noEvBeforeWait]
          | some nid =>
            simp +decide [resourceArmRouteCreateUpdate, hc, hw, hg, hi,
              noEvBeforeWait]
  · cases hc : w.createErr with
    | some e => simp +decide [resourceArmRouteCreateUpdate, hc, noEvBeforeWait]
    | none =>
      cases hw : w.waitErr with
      | some e => simp +decide [resourceArmRouteCreateUpdate, hc, hw, noEvBeforeWait]
      | none =>
        cases hg : w.getErr with
        | some e =>
          simp +decide [resourceArmRouteCreateUpdate, hc, hw, hg, noEvBeforeWait]
        | none =>
          cases hi : w.getRouteID with
          | none =>
            simp +decide [resourceArmRouteCreateUpdate, hc, hw, hg, hi,
              noEvBeforeWait]
          | some nid =>
            simp +decide [resourceArmRouteCreateUpdate, hc, hw, hg, hi,
              noEvBeforeWait]
  · intro e he
    by_cases hs : dv.getStr "settings" = ""
    · by_cases hp : dv.getStr "protected_settings" = ""
      · simp [resourceArmVirtualMachineExtensionsCreate, hs, hp, he]
      · cases hej : v.expandJson (dv.getStr "protected_settings") with
        | error pe =>
          simp [resourceArmVirtualMachineExtensionsCreate, hs, hp, hej, he]
        | ok pm =>
          simp [resourceArmVirtualMachineExtensionsCreate, hs, hp, hej, he]
    · cases hsj : v.expandJson (dv.getStr "settings") with
      | error se =>
        simp [resourceArmVirtualMachineExtensionsCreate, hs, hsj, he]
      | ok sm =>
        by_cases hp : dv.getStr "protected_settings" = ""
        · simp [resourceArmVirtualMachineExtensionsCreate, hs, hsj, hp, he]
        · cases hej : v.expandJson (dv.getStr "protected_settings") with
          | error pe =>
            simp [resourceArmVirtualMachineExtensionsCreate, hs, hsj, hp, hej, he]
          | ok pm =>
            simp [resourceArmVirtualMachineExtensionsCreate, hs, hsj, hp, hej, he]
  · intro e hce hwe
    by_cases hs : dv.getStr "settings" = ""
    · by_cases hp : dv.getStr "protected_settings" = ""
      · simp [resourceArmVirtualMachineExtensionsCreate, hs, hp, hce, hwe]
      · cases hej : v.expandJson (dv.getStr "protected_settings") with
        | error pe =>
          simp [resourceArmVirtualMachineExtensionsCreate, hs, hp, hej, hce, hwe]
        | ok pm =>
          simp [resourceArmVirtualMachineExtensionsCreate, hs, hp, hej, hce, hwe]
    · cases hsj : v.expandJson (dv.getStr "settings") with
      | error se =>
        simp [resourceArmVirtualMachineExtensionsCreate, hs, hsj, hce, hwe]
      | ok sm =>
        by_cases hp : dv.getStr "protected_settings" = ""
        · simp [resourceArmVirtualMachineExtensionsCreate, hs, hsj, hp, hce, hwe]
        · cases hej : v.expandJson (dv.getStr "protected_settings") with
          | error pe =>
            simp [resourceArmVirtualMachineExtensionsCreate, hs, hsj, hp, hej,
              hce, hwe]
          | ok pm =>
            simp [resourceArmVirtualMachineExtensionsCreate, hs, hsj, hp, hej,
              hce, hwe]
  · by_cases hs : dv.getStr "settings" = ""
    · by_cases hp : dv.getStr "protected_settings" = ""
      · cases hc : v.createErr with
        | some e =>
          simp +decide [resourceArmVirtualMachineExtensionsCreate, hs, hp, hc,
            noEvBeforeWait]
        | none =>
          cases hw : v.waitErr with
          | some e =>
            simp +decide [resourceArmVirtualMachineExtensionsCreate, hs, hp, hc,
              hw, noEvBeforeWait]
          | none =>
            cases hg : v.getErr with
            | some e =>
              simp +decide [resourceArmVirtualMachineExtensionsCreate, hs, hp,
                hc, hw, hg, noEvBeforeWait]
            | none =>
              cases hi : v.getExtID with
              | none =>
                simp +decide [resourceArmVirtualMachineExtensionsCreate, hs, hp,
                  hc, hw, hg, hi, noEvBeforeWait]
              | some nid =>
                simp +decide [resourceArmVirtualMachineExtensionsCreate, hs, hp,
                  hc, hw, hg, hi, noEvBeforeWait]
      · cases hej : v.expandJson (dv.getStr "protected_settings") with
        | error pe =>
          simp +decide [resourceArmVirtualMachineExtensionsCreate, hs, hp, hej,
            noEvBeforeWait]
        | ok pm =>
          cases hc : v.createErr with
          | some e =>
            simp +decide [resourceArmVirtualMachineExtensionsCreate, hs, hp,
              hej, hc, noEvBeforeWait]
          | none =>
            cases hw : v.waitErr with
            | some e =>
              simp +decide [resourceArmVirtualMachineExtensionsCreate, hs, hp,
                hej, hc, hw, noEvBeforeWait]
            | none =>
              cases hg : v.getErr with
              | some e =>
                simp +decide [resourceArmVirtualMachineExtensionsCreate, hs, hp,
                  hej, hc, hw, hg, noEvBeforeWait]
              | none =>
                cases hi : v.getExtID with
                | none =>
                  simp +decide [resourceArmVirtualMachineExtensionsCreate, hs,
                    hp, hej, hc, hw, hg, hi, noEvBeforeWait]
                | some nid =>
                  simp +decide [resourceArmVirtualMachineExtensionsCreate, hs,
                    hp, hej, hc, hw, hg, hi, noEvBeforeWait]
    · cases hsj : v.expandJson (dv.getStr "settings") with
      | error se =>
        simp +decide [resourceArmVirtualMachineExtensionsCreate, hs, hsj,
          noEvBeforeWait]
      | ok sm =>
        by_cases hp : dv.getStr "protected_settings" = ""
        · cases hc : v.createErr with
          | some e =>
            simp +decide [resourceArmVirtualMachineExtensionsCreate, hs, hsj,
              hp, hc, noEvBeforeWait]
          | none =>
            cases hw : v.waitErr with
            | some e =>
              simp +decide [resourceArmVirtualMachineExtensionsCreate, hs, hsj,
                hp, hc, hw, noEvBeforeWait]
            | none =>
              cases hg : v.getErr with
              | some e =>
                simp +decide [resourceArmVirtualMachineExtensionsCreate, hs,
                  hsj, hp, hc, hw, hg, noEvBeforeWait]
              | none =>
                cases hi : v.getExtID with
                | none =>
                  simp +decide [resourceArmVirtualMachineExtensionsCreate, hs,
                    hsj, hp, hc, hw, hg, hi, noEvBeforeWait]
                | some nid =>
                  simp +decide [resourceArmVirtualMachineExtensionsCreate, hs,
                    hsj, hp, hc, hw, hg, hi, noEvBeforeWait]
        · cases hej : v.expandJson (dv.getStr "protected_settings") with
          | error pe =>
            simp +decide [resourceArmVirtualMachineExtensionsCreate, hs, hsj,
              hp, hej, noEvBeforeWait]
          | ok pm =>
            cases hc : v.createErr with
            | some e =>
              simp +decide [resourceArmVirtualMachineExtensionsCreate, hs, hsj,
                hp, hej, hc, noEvBeforeWait]
            | none =>
              cases hw : v.waitErr with
              | some e =>
                simp +decide [resourceArmVirtualMachineExtensionsCreate, hs,
                  hsj, hp, hej, hc, hw, noEvBeforeWait]
              | none =>
                cases hg : v.getErr with
                | some e =>
                  simp +decide [resourceArmVirtualMachineExtensionsCreate, hs,
                    hsj, hp, hej, hc, hw, hg, noEvBeforeWait]
                | none =>
                  cases hi : v.getExtID with
                  | none =>
                    simp +decide [resourceArmVirtualMachineExtensionsCreate, hs,
                      hsj, hp, hej, hc, hw, hg, hi, noEvBeforeWait]
                  | some nid =>
                    simp +decide [resourceArmVirtualMachineExtensionsCreate, hs,
                      hsj, hp, hej, hc, hw, hg, hi, noEvBeforeWait]
  · by_cases hs : dv.getStr "settings" = ""
    · by_cases hp : dv.getStr "protected_settings" = ""
      · cases hc : v.createErr with
        | some e =>
          simp +decide [resourceArmVirtualMachineExtensionsCreate, hs, hp, hc,
            noEvBeforeWait]
        | none =>
          cases hw : v.waitErr with
          | some e =>
            simp +decide [resourceArmVirtualMachineExtensionsCreate, hs, hp, hc,
              hw, noEvBeforeWait]
          | none =>
            cases hg : v.getErr with
            | some e =>
              simp +decide [resourceArmVirtualMachineExtensionsCreate, hs, hp,
                hc, hw, hg, noEvBeforeWait]
            | none =>
              cases hi : v.getExtID with
              | none =>
                simp +decide [resourceArmVirtualMachineExtensionsCreate, hs, hp,
                  hc, hw, hg, hi, noEvBeforeWait]
              | some nid =>
                simp +decide [resourceArmVirtualMachineExtensionsCreate, hs, hp,
                  hc, hw, hg, hi, noEvBeforeWait]
      · cases hej : v.expandJson (dv.getStr "protected_settings") with
        | error pe =>
          simp +decide [resourceArmVirtualMachineExtensionsCreate, hs, hp, hej,
            noEvBeforeWait]
        | ok pm =>
          cases hc : v.createErr with
          | some e =>
            simp +decide [resourceArmVirtualMachineExtensionsCreate, hs, hp,
              hej, hc, noEvBeforeWait]
          | none =>
            cases hw : v.waitErr with
            | some e =>
              simp +decide [resourceArmVirtualMachineExtensionsCreate, hs, hp,
                hej, hc, hw, noEvBeforeWait]
            | none =>
              cases hg : v.getErr with
              | some e =>
                simp +decide [resourceArmVirtualMachineExtensionsCreate, hs, hp,
                  hej, hc, hw, hg, noEvBeforeWait]
              | none =>
                cases hi : v.getExtID with
                | none =>
                  simp +decide [resourceArmVirtualMachineExtensionsCreate, hs,
                    hp, hej, hc, hw, hg, hi, noEvBeforeWait]
                | some nid =>
                  simp +decide [resourceArmVirtualMachineExtensionsCreate, hs,
                    hp, hej, hc, hw, hg, hi, noEvBeforeWait]
    · cases hsj : v.expandJson (dv.getStr "settings") with
      | error se =>
        simp +decide [resourceArmVirtualMachineExtensionsCreate, hs, hsj,
          noEvBeforeWait]
      | ok sm =>
        by_cases hp : dv.getStr "protected_settings" = ""
        · cases hc : v.createErr with
          | some e =>
            simp +decide [resourceArmVirtualMachineExtensionsCreate, hs, hsj,
              hp, hc, noEvBeforeWait]
          | none =>
            cases hw : v.waitErr with
            | some e =>
              simp +decide [resourceArmVirtualMachineExtensionsCreate, hs, hsj,
                hp, hc, hw, noEvBeforeWait]
            | none =>
              cases hg : v.getErr with
              | some e =>
                simp +decide [resourceArmVirtualMachineExtensionsCreate, hs,
                  hsj, hp, hc, hw, hg, noEvBeforeWait]
              | none =>
                cases hi : v.getExtID with
                | none =>
                  simp +decide [resourceArmVirtualMachineExtensionsCreate, hs,
                    hsj, hp, hc, hw, hg, hi, noEvBeforeWait]
                | some nid =>
                  simp +decide [resourceArmVirtualMachineExtensionsCreate, hs,
                    hsj, hp, hc, hw, hg, hi, noEvBeforeWait]
        · cases hej : v.expandJson (dv.getStr "protected_settings") with
          | error pe =>
            simp +decide [resourceArmVirtualMachineExtensionsCreate, hs, hsj,
              hp, hej, noEvBeforeWait]
          | ok pm =>
            cases hc : v.createErr with
            | some e =>
              simp +decide [resourceArmVirtualMachineExtensionsCreate, hs, hsj,
                hp, hej, hc, noEvBeforeWait]
            | none =>
              cases hw : v.waitErr with
              | some e =>
                simp +decide [resourceArmVirtualMachineExtensionsCreate, hs,
                  hsj, hp, hej, hc, hw, noEvBeforeWait]
              | none =>
                cases hg : v.getErr with
                | some e =>
                  simp +decide [resourceArmVirtualMachineExtensionsCreate, hs,
                    hsj, hp, hej, hc, hw, hg, noEvBeforeWait]
                | none =>
                  cases hi : v.getExtID with
                  | none =>
                    simp +decide [resourceArmVirtualMachineExtensionsCreate, hs,
                      hsj, hp, hej, hc, hw, hg, hi, noEvBeforeWait]
                  | some nid =>
                    simp +decide [resourceArmVirtualMachineExtensionsCreate, hs,
                      hsj, hp, hej, hc, hw, hg, hi, noEvBeforeWait]

/-- C4 witness world: route CreateOrUpdate fails to start. -/
def c4RouteWorld : RouteCreateWorld where
  createErr := some "quota"
  waitErr := none
  getErr := none
  getRouteID := none
  readW := c3WorldR

/-- C4 witness world: VM extension poll fails after a started
operation. -/
def c4VmWorld : VmExtCreateWorld where
  expandJson := fun _ => Except.error "bad json"
  createErr := none
  waitErr := some "timeout"
  getErr := none
  getExtID := none
  readW :=
    { parseID := fun _ => Except.ok c3ID
      flattenJson := fun _ => Except.ok "json"
      get :=
        { err := some "not found"
          status := 404
          name := none
          location := none
          props := none
          tags := [] } }

/-- Witness for C4 at concrete worlds: a failed start and a failed poll
return diagnostics without touching the state or performing SetId. -/
theorem lro_polled_to_completion_witness :
    (resourceArmRouteCreateUpdate c4RouteWorld c3Data).1 ≠ [] ∧
    (resourceArmRouteCreateUpdate c4RouteWorld c3Data).2.1 = c3Data ∧
    Event.setIdEv ∉ (resourceArmRouteCreateUpdate c4RouteWorld c3Data).2.2 ∧
    noEvBeforeWait Event.setIdEv
      (resourceArmRouteCreateUpdate c4RouteWorld c3Data).2.2 = true ∧
    (resourceArmVirtualMachineExtensionsCreate c4VmWorld c3Data).1 ≠ [] ∧
    (resourceArmVirtualMachineExtensionsCreate c4VmWorld c3Data).2.1 = c3Data ∧
    Event.setIdEv ∉ (resourceArmVirtualMachineExtensionsCreate c4VmWorld c3Data).2.2 := by
  have h := lro_polled_to_completion c4RouteWorld c4VmWorld c3Data c3Data
  have h1 := h.1.1 "quota" rfl
  have h2 := h.2.2.1 "timeout" rfl rfl
  exact ⟨h1.1, h1.2.1, h1.2.2, h.1.2.2.1, h2.1, h2.2.1, h2.2.2⟩

/-! ## Load balancer backend address pool updates (C8)
(src/azurestack/resource_arm_dns_zone.go, second file in the bundle:
resource_arm_loadbalancer_backend_address_pool.go) -/

/-- network.BackendAddressPool: name and id pointers plus its remaining
SDK fields, which this code never modifies. -/
structure BackendAddressPool where
  name : Option String
  poolID : Option String
  poolProps : String
deriving DecidableEq

/-- network.LoadBalancerPropertiesFormat: the backend pools pointer
plus the remaining property fields, which this code never modifies. -/
structure LoadBalancerProps where
  backendAddressPools : Option (List BackendAddressPool)
  otherProps : String
deriving DecidableEq

/-- network.LoadBalancer: id, properties pointer and the remaining
top-level fields, which this code never modifies. -/
structure LoadBalancer where
  lbID : Option String
  props : Option LoadBalancerProps
  otherFields : String
deriving DecidableEq

/-- expandAzureRmLoadBalancerBackendAddressPools: a fresh pool carrying
only the configured name. -/
def expandAzureRmLoadBalancerBackendAddressPools (name : String) :
    BackendAddressPool :=
  { name := some name, poolID := none, poolProps := "" }

/-- First pool whose name matches, with its index. -/
def findPoolAux (poolName : String) :
    List BackendAddressPool → Option (BackendAddressPool × Nat)
  | [] => none
  | p :: rest =>
    if p.name = some poolName then some (p, 0)
    else (findPoolAux poolName rest).map (fun r => (r.1, r.2 + 1))

/-- Modelled from the spec: findLoadBalancerBackEndAddressPoolByName
lives in a loadbalancer helper file absent from src (only call sites
are present). Per the spec's by-name lookup of the shared parent's
subresources, it returns the first backend address pool of the load
balancer whose name equals the given name, together with its index. -/
def findLoadBalancerBackEndAddressPoolByName (lb : LoadBalancer)
    (name : String) : Option (BackendAddressPool × Nat) :=
  match lb.props with
  | none => none
  | some props =>
    match props.backendAddressPools with
    | none => none
    | some pools => findPoolAux name pools

/-- The update resourceArmLoadBalancerBackendAddressPoolCreate sends:
the retrieved load balancer with the new pool appended and, when a
pool of the same name already existed at some index, the old copy at
that index removed from the appended list. -/
def backendAddressPoolCreateSentLB (loadBalancer : LoadBalancer)
    (poolName : String) : Option LoadBalancer :=
  match loadBalancer.props with
  | none => none
  | some props =>
    match props.backendAddressPools with
    | none => none
    | some pools =>
      let backendAddressPools :=
        pools ++ [expandAzureRmLoadBalancerBackendAddressPools poolName]
      match findLoadBalancerBackEndAddressPoolByName loadBalancer poolName with
      | none =>
        some { loadBalancer with
          props := some { props with
            backendAddressPools := some backendAddressPools } }
      | some (existingPool, existingPoolIndex) =>
        match existingPool.name with
        | none => none
        | some en =>
          let pools2 :=
            if poolName = en then
              backendAddressPools.take existingPoolIndex
                ++ backendAddressPools.drop (existingPoolIndex + 1)
            else backendAddressPools
          some { loadBalancer with
            props := some { props with backendAddressPools := some pools2 } }

/-- The update resourceArmLoadBalancerBackendAddressPoolDelete sends
when the pool is found: the retrieved load balancer with the pool at
the found index removed; when the pool is not found no update is sent
(none). -/
def backendAddressPoolDeleteSentLB (loadBalancer : LoadBalancer)
    (poolName : String) : Option LoadBalancer :=
  match findLoadBalancerBackEndAddressPoolByName loadBalancer poolName with
  | none => none
  | some (_, index) =>
    match loadBalancer.props with
    | none => none
    | some props =>
      match props.backendAddressPools with
      | none => none
      | some oldBackEndPools =>
        let newBackEndPools :=
          oldBackEndPools.take index ++ oldBackEndPools.drop (index + 1)
        some { loadBalancer with
          props := some { props with
            backendAddressPools := some newBackEndPools } }

theorem findPoolAux_none {nm : String} {pools : List BackendAddressPool}
    (h : findPoolAux nm pools = none) : ∀ p ∈ pools, p.name ≠ some nm := by
  induction pools with
  | nil => intro p hp; simp at hp
  | cons q rest ih =>
    by_cases hq : q.name = some nm
    · simp [findPoolAux, hq] at h
    · simp only [findPoolAux, hq, if_false, Option.map_eq_none'] at h
      intro p hp
      rcases List.mem_cons.mp hp with h0 | h0
      · subst h0; exact hq
      · exact ih h p h0

theorem findPoolAux_some {nm : String} {pools : List BackendAddressPool}
    {p : BackendAddressPool} {i : Nat}
    (h : findPoolAux nm pools = some (p, i)) :
    i < pools.length ∧ pools.get? i = some p ∧ p.name = some nm ∧
      ∀ q ∈ pools.take i, q.name ≠ some nm := by
  induction pools generalizing p i with
  | nil => simp [findPoolAux] at h
  | cons q rest ih =>
    by_cases hq : q.name = some nm
    · simp only [findPoolAux, hq, if_true, Option.some.injEq, Prod.mk.injEq] at h
      rcases h with ⟨hp, hi⟩
      subst hp
      subst hi
      refine ⟨Nat.succ_pos _, rfl, hq, ?_⟩
      intro a ha
      simp at ha
    · simp only [findPoolAux, hq, if_false, Option.map_eq_some'] at h
      rcases h with ⟨⟨p2, j⟩, hfind, hpj⟩
      have hp2 : p2 = p := congrArg Prod.fst hpj
      have hj : j + 1 = i := congrArg Prod.snd hpj
      subst hp2
      rcases ih hfind with ⟨hlt, hget, hname, htake⟩
      subst hj
      refine ⟨Nat.succ_lt_succ hlt, by simpa using hget, hname, ?_⟩
      intro a ha
      rcases List.mem_cons.mp (by simpa using ha) with h0 | h0
      · subst h0; exact hq
      · exact htake a h0

theorem take_drop_eq_filter_of_unique {nm : String}
    {pools : List BackendAddressPool} {p : BackendAddressPool} {i : Nat}
    (hfind : findPoolAux nm pools = some (p, i))
    (hcount : pools.countP (fun q => q.name == some nm) ≤ 1) :
    pools.take i ++ pools.drop (i + 1)
      = pools.filter (fun q => !(q.name == some nm)) := by
  induction pools generalizing p i with
  | nil => simp [findPoolAux] at hfind
  | cons q rest ih =>
    by_cases hq : q.name = some nm
    · simp only [findPoolAux, hq, if_true, Option.some.injEq, Prod.mk.injEq] at hfind
      rcases hfind with ⟨hp, hi⟩
      subst hi
      have hcr : rest.countP (fun q => q.name == some nm) = 0 := by
        have : (q :: rest).countP (fun q => q.name == some nm)
            = rest.countP (fun q => q.name == some nm) + 1 := by
          simp [List.countP_cons, hq]
        omega
      have hrest : rest.filter (fun q => !(q.name == some nm)) = rest := by
        apply List.filter_eq_self.mpr
        intro a ha
        have := List.countP_eq_zero.mp hcr a ha
        simpa using this
      simp [hq, hrest]
    · simp only [findPoolAux, hq, if_false, Option.map_eq_some'] at hfind
      rcases hfind with ⟨⟨p2, j⟩, hfind2, hpj⟩
      have hj : j + 1 = i := congrArg Prod.snd hpj
      subst hj
      have hcr : rest.countP (fun q => q.name == some nm) ≤ 1 := by
        have : (q :: rest).countP (fun q => q.name == some nm)
            = rest.countP (fun q => q.name == some nm) := by
          simp [List.countP_cons, hq]
        omega
      have := ih hfind2 hcr
      simp only [List.take_succ_cons, List.drop_succ_cons, List.cons_append,
        List.filter_cons]
      have hqb : (!(q.name == some nm)) = true := by
        simp [hq]
      rw [hqb]
      simp only [if_true]
      exact congrArg (List.cons q) this

theorem append_single_take_drop {α : Type} (l : List α) (x : α) (i : Nat)
    (h : i < l.length) :
    (l ++ [x]).take i ++ (l ++ [x]).drop (i + 1)
      = (l.take i ++ l.drop (i + 1)) ++ [x] := by
  rw [List.take_append_eq_append_take, List.drop_append_eq_append_drop]
  have h1 : i - l.length = 0 := by omega
  have h2 : i + 1 - l.length = 0 := by omega
  rw [h1, h2]
  simp

/-- The pool list the Create update carries: the other-named retrieved
pools followed by the fresh pool of the configured name. -/
def createdPools (pools : List BackendAddressPool) (nm : String) :
    List BackendAddressPool :=
  pools.filter (fun q => !(q.name == some nm))
    ++ [expandAzureRmLoadBalancerBackendAddressPools nm]

/-- The pool list the Delete update carries: the retrieved pools with
the entry at the found index removed. -/
def deletedPools (pools : List BackendAddressPool) (i : Nat) :
    List BackendAddressPool :=
  pools.take i ++ pools.drop (i + 1)

/-- C8. Backend address pool operations frame their parent load
balancer: with the parent's pool names containing the configured name
at most once, the Create update sends the retrieved load balancer with
only its pool list changed, to the other-named pools followed by the
fresh pool (exactly one pool of the configured name, no duplicate);
and whenever the by-name lookup finds a pool at an index, the Delete
update sends the retrieved load balancer with only its pool list
changed, to the list with exactly that index removed. All other load
balancer fields and properties pass through unchanged. -/
theorem backendAddressPool_frame (lb : LoadBalancer) (props : LoadBalancerProps)
    (pools : List BackendAddressPool) (nm : String)
    (hprops : lb.props = some props)
    (hpools : props.backendAddressPools = some pools)
    (huniq : pools.countP (fun q => q.name == some nm) ≤ 1) :
    (backendAddressPoolCreateSentLB lb nm
        = some { lb with props := some { props with backendAddressPools := some (createdPools pools nm) } } ∧
      (createdPools pools nm).countP (fun q => q.name == some nm) = 1) ∧
    (∀ p i, findLoadBalancerBackEndAddressPoolByName lb nm = some (p, i) →
      p.name = some nm ∧ pools.get? i = some p ∧
      backendAddressPoolDeleteSentLB lb nm
        = some { lb with props := some { props with backendAddressPools := some (deletedPools pools i) } }) := by
  have hfindeq : findLoadBalancerBackEndAddressPoolByName lb nm
      = findPoolAux nm pools := by
    simp [findLoadBalancerBackEndAddressPoolByName, hprops, hpools]
  refine ⟨⟨?_, ?_⟩, ?_⟩
  · cases hf : findPoolAux nm pools with
    | none =>
      have hfe : pools.filter (fun q => !(q.name == some nm)) = pools := by
        apply List.filter_eq_self.mpr
        intro a ha
        have := findPoolAux_none hf a ha
        simpa using this
      simp only [backendAddressPoolCreateSentLB, hprops, hpools, hfindeq, hf,
        createdPools]
      rw [hfe]
    | some pi =>
      rcases pi with ⟨p, i⟩
      rcases findPoolAux_some hf with ⟨hlt, hget, hname, _⟩
      simp only [backendAddressPoolCreateSentLB, hprops, hpools, hfindeq, hf,
        hname, createdPools]
      rw [if_pos trivial]
      rw [append_single_take_drop pools _ i hlt,
        take_drop_eq_filter_of_unique hf huniq]
  · rw [createdPools, List.countP_append]
    have h0 : (pools.filter (fun q => !(q.name == some nm))).countP
        (fun q => q.name == some nm) = 0 := by
      apply List.countP_eq_zero.mpr
      intro a ha
      have := List.of_mem_filter ha
      simpa using this
    rw [h0]
    simp [expandAzureRmLoadBalancerBackendAddressPools, List.countP_cons]
  · intro p i hfind
    have hfa : findPoolAux nm pools = some (p, i) := by
      rw [← hfindeq]; exact hfind
    rcases findPoolAux_some hfa with ⟨_, hget, hname, _⟩
    refine ⟨hname, hget, ?_⟩
    simp only [backendAddressPoolDeleteSentLB, hfind, hprops, hpools,
      deletedPools]

/-- A pool named web for the C8 witness. -/
def c8Pool1 : BackendAddressPool where
  name := some "web"
  poolID := some "pid1"
  poolProps := "p1"

/-- A pool named api for the C8 witness. -/
def c8Pool2 : BackendAddressPool where
  name := some "api"
  poolID := some "pid2"
  poolProps := "p2"

/-- Properties of the C8 witness load balancer. -/
def c8Props : LoadBalancerProps where
  backendAddressPools := some [c8Pool1, c8Pool2]
  otherProps := "frontends and probes"

/-- The C8 witness load balancer. -/
def c8LB : LoadBalancer where
  lbID := some "lbid"
  props := some c8Props
  otherFields := "name sku location tags"

/-- Witness for C8: creating pool web on a balancer already holding a
web pool replaces it (one web pool, the api pool and all other fields
untouched); deleting pool web removes exactly index 0. -/
theorem backendAddressPool_frame_witness :
    (backendAddressPoolCreateSentLB c8LB "web"
        = some { c8LB with props := some { c8Props with backendAddressPools := some (createdPools [c8Pool1, c8Pool2] "web") } } ∧
      (createdPools [c8Pool1, c8Pool2] "web").countP
        (fun q => q.name == some "web") = 1) ∧
    (c8Pool1.name = some "web" ∧ [c8Pool1, c8Pool2].get? 0 = some c8Pool1 ∧
      backendAddressPoolDeleteSentLB c8LB "web"
        = some { c8LB with props := some { c8Props with backendAddressPools := some (deletedPools [c8Pool1, c8Pool2] 0) } }) := by
  have h := backendAddressPool_frame c8LB c8Props [c8Pool1, c8Pool2] "web"
    rfl rfl (by decide)
  exact ⟨h.1, h.2 c8Pool1 0 rfl⟩
